import Mathlib

/-!
# ReactSiema: navigation, breakpoint resolution, slide offset and drag handling

A shallow embedding of `lib/ReactSiema.js` (the compiled `build/` version, which
agrees with `src/` on everything modelled here except where said otherwise).

* Indices and panel counts are integers, pixel quantities are rationals. The
  methods are first modelled with exact subtraction; the drag arithmetic is
  modelled a second time with binary64 rounding (definitions with the suffix
  `64`), which is what the step counts of fractional drags depend on.
* The component instance is the record `Siema`; every method is a function on it.
* Values read from the DOM (`getBoundingClientRect().width`, the number of
  children of the slider frame, `window.innerWidth`) are passed in as `Env`.
* `props.onAfterChange` is modelled by a flag saying whether the callback was
  provided and a counter of its invocations.
-/

set_option linter.unnecessarySeqFocus false

namespace ReactSiema

/-- The `perPage` option: either a number, or an object mapping viewport
thresholds to counts. The object is given by its properties in the order in
which `for (var viewport in ...)` enumerates them. -/
inductive PerPage where
  | number (n : Int)
  | object (entries : List (ℚ × Int))
  deriving DecidableEq, Repr

/-- The fields of `this.config` (defaults as in the constructor) that the
modelled methods read. -/
structure Config where
  perPage : PerPage := PerPage.number 1
  startIndex : Int := 0
  draggable : Bool := true
  threshold : ℚ := 20
  loop : Bool := false
  deriving DecidableEq, Repr

/-- What the component reads from its surroundings during `init` and `resize`. -/
structure Env where
  /-- Value of `this.selector.getBoundingClientRect().width`. -/
  width : ℚ
  /-- Value of `this.sliderFrame.children.length`. -/
  children : Nat
  /-- Value of `window.innerWidth`. -/
  innerWidth : ℚ
  deriving DecidableEq, Repr

/-- The instance fields of the component. -/
structure Siema where
  config : Config := {}
  /-- Whether `this.props.onAfterChange` is provided. -/
  onAfterChange : Bool := false
  /-- Number of calls of `this.props.onAfterChange()` made so far. -/
  fired : Nat := 0
  /-- Value of `this.innerElements.length`. -/
  innerElements : Nat := 0
  perPage : Int := 1
  selectorWidth : ℚ := 0
  currentSlide : Int := 0
  /-- Horizontal translation currently set on the slider frame, in px. -/
  translateX : ℚ := 0
  pointerDown : Bool := false
  firstMove : Bool := false
  verticalScrolling : Bool := false
  /-- Field `this.drag.start`; `none` stands for `null`. -/
  dragStart : Option ℚ := some 0
  /-- Field `this.drag.startY`; `none` stands for an absent value. -/
  dragStartY : Option ℚ := none
  /-- Field `this.drag.end`; `none` stands for `null`. -/
  dragEnd : Option ℚ := some 0
  /-- Field `this.state.dragged`. -/
  dragged : Bool := false
  /-- Whether `this.drag` holds an object. `componentDidMount` creates it when
  `draggable` is on, `clearDrag` creates it anew; while it is missing the fields
  `dragStart`, `dragStartY` and `dragEnd` stand for nothing, and every handler
  that reads or writes `this.drag` throws a `TypeError`. -/
  dragDefined : Bool := false
  deriving DecidableEq, Repr

/-- The loop body of `resolveSlidesNumber` over the enumerated properties:
`if (window.innerWidth > viewport) this.perPage = this.config.perPage[viewport]`. -/
def resolveLoop (innerWidth : ℚ) : List (ℚ × Int) → Int → Int
  | [], perPage => perPage
  | (viewport, count) :: rest, perPage =>
      resolveLoop innerWidth rest (if innerWidth > viewport then count else perPage)

/-- The value that `resolveSlidesNumber` assigns to `this.perPage`: the number
itself, or the outcome of the loop started from `this.perPage = 1`. -/
def resolvePerPage (innerWidth : ℚ) : PerPage → Int
  | PerPage.number n => n
  | PerPage.object entries => resolveLoop innerWidth entries 1

/-- Method `resolveSlidesNumber`. -/
def resolveSlidesNumber (innerWidth : ℚ) (s : Siema) : Siema :=
  { s with perPage := resolvePerPage innerWidth s.config.perPage }

/-- The number that `slideToCurrent` splices into
`'translate3d(-' + ... + 'px, 0, 0)'`. -/
def slideDistance (s : Siema) : ℚ :=
  (s.currentSlide : ℚ) * (s.selectorWidth / (s.perPage : ℚ))

/-- Method `slideToCurrent`. The transform text is a literal minus sign followed
by `slideDistance`; for a non-negative distance `d` it denotes the offset `-d`.
For a negative distance the text starts with two minus signs, is not a length,
and the style keeps its previous value. -/
def slideToCurrent (s : Siema) : Siema :=
  if 0 ≤ slideDistance s then { s with translateX := -(slideDistance s) } else s

/-- Calls `this.props.onAfterChange()` when it is provided. -/
def fire (s : Siema) : Siema :=
  if s.onAfterChange then { s with fired := s.fired + 1 } else s

/-- Method `prev`. -/
def prev (s : Siema) : Siema :=
  if s.currentSlide = 0 ∧ s.config.loop = true then
    slideToCurrent (fire { s with currentSlide := (s.innerElements : Int) - s.perPage })
  else
    let nextSlide := max (s.currentSlide - 1) 0
    let shouldFireEvent := decide (nextSlide ≠ s.currentSlide) && s.onAfterChange
    let s1 := { s with currentSlide := nextSlide }
    slideToCurrent (if shouldFireEvent then { s1 with fired := s1.fired + 1 } else s1)

/-- Method `next`. -/
def next (s : Siema) : Siema :=
  if s.currentSlide = (s.innerElements : Int) - s.perPage ∧ s.config.loop = true then
    slideToCurrent (fire { s with currentSlide := 0 })
  else
    let nextSlide := min (s.currentSlide + 1) ((s.innerElements : Int) - s.perPage)
    let shouldFireEvent := decide (nextSlide ≠ s.currentSlide) && s.onAfterChange
    let s1 := { s with currentSlide := nextSlide }
    slideToCurrent (if shouldFireEvent then { s1 with fired := s1.fired + 1 } else s1)

/-- Method `goTo`. -/
def goTo (index : Int) (s : Siema) : Siema :=
  fire (slideToCurrent
    { s with currentSlide := min (max index 0) ((s.innerElements : Int) - 1) })

/-- Method `processMovement`; the recursion of the source is bounded by `fuel`,
and `none` means that the fuel ran out before the recursion returned. The
subtraction is exact here; `processMovement64` rounds it to binary64. -/
def processMovement : Nat → ℚ → Bool → Siema → Option Siema
  | 0, _, _, _ => none
  | fuel + 1, movement, toTheRight, s =>
      if movement < s.config.threshold then some s
      else
        processMovement fuel (movement - s.selectorWidth) toTheRight
          (if toTheRight then next s else prev s)

/-- Numeric value of a `drag` field in arithmetic: `null` counts as `0`. -/
def toNumber (x : Option ℚ) : ℚ := x.getD 0

/-- Method `updateAfterDrag` of the build version, on an instance that has its
`drag` object, with exact subtraction; `updateAfterDrag64` rounds to binary64. -/
def updateAfterDrag (fuel : Nat) (s : Siema) : Option Siema :=
  let movement := toNumber s.dragEnd - toNumber s.dragStart
  (processMovement fuel |movement| (decide (movement < 0)) s).map slideToCurrent

/-- Method `resize`. -/
def resize (env : Env) (s : Siema) : Siema :=
  { resolveSlidesNumber env.innerWidth s with selectorWidth := env.width }

/-- Method `init`: `setSelectorWidth`, `setInnerElements`,
`resolveSlidesNumber`, then `slideToCurrent`. -/
def init (env : Env) (s : Siema) : Siema :=
  slideToCurrent
    (resolveSlidesNumber env.innerWidth
      { s with selectorWidth := env.width, innerElements := env.children })

/-- Method `componentDidMount`, on an instance whose constructor received the
configuration `config` and the flag `onAfterChange`. When `draggable` is off the
source leaves `pointerDown` and `drag` unset: `dragDefined` stays false. -/
def componentDidMount (config : Config) (onAfterChange : Bool) (env : Env) : Siema :=
  let s := init env
    { config := config, onAfterChange := onAfterChange, currentSlide := config.startIndex }
  if config.draggable then
    { s with pointerDown := false, dragStart := some 0, dragEnd := some 0,
             dragDefined := true }
  else s

/-- Method `componentDidUpdate` of the build version: the configuration is
rebuilt from the new props, then `init` runs. -/
def componentDidUpdate (config : Config) (onAfterChange : Bool) (env : Env)
    (s : Siema) : Siema :=
  init env { s with config := config, onAfterChange := onAfterChange }

/-- The call made by one round of `processMovement`: `next()` when
`toTheRight`, `prev()` otherwise. -/
def navigate (toTheRight : Bool) (s : Siema) : Siema :=
  if toTheRight then next s else prev s

/-- Method `processMovement` with a counter: the second component is the number
of `next()`/`prev()` calls made before the recursion returned. -/
def processMovementCount : Nat → ℚ → Bool → Siema → Option (Siema × Nat)
  | 0, _, _, _ => none
  | fuel + 1, movement, toTheRight, s =>
      if movement < s.config.threshold then some (s, 0)
      else
        (processMovementCount fuel (movement - s.selectorWidth) toTheRight
          (if toTheRight then next s else prev s)).map (fun r => (r.1, r.2 + 1))

/-- Method `updateAfterDrag` of the `src/` version: at most one step, taken when
the movement is strictly beyond the threshold. The instance has its `drag`
object and the subtraction is exact; `updateAfterDragSrc64` rounds to binary64. -/
def updateAfterDragSrc (s : Siema) : Siema :=
  let movement := toNumber s.dragEnd - toNumber s.dragStart
  if movement > 0 ∧ |movement| > s.config.threshold then slideToCurrent (prev s)
  else if movement < 0 ∧ |movement| > s.config.threshold then slideToCurrent (next s)
  else slideToCurrent s

/-- Method `clearDrag` of the build version: `this.drag` becomes
`{ start: null, end: null }`, which also drops `startY`. -/
def clearDrag (s : Siema) : Siema :=
  { s with dragStart := none, dragEnd := none, dragStartY := none, dragDefined := true }

/-- Truthiness of a `drag` field, as tested by `if (this.drag.end)`: `null` and
`0` are falsy. -/
def truthy (x : Option ℚ) : Bool :=
  match x with
  | none => false
  | some v => decide (v ≠ 0)

/-- What the touch handlers read from a touch event. -/
structure TouchEvent where
  /-- Value of `e.touches.length`. -/
  touches : Nat
  /-- Value of `e.touches[0].pageX`. -/
  pageX : ℚ
  /-- Value of `e.touches[0].pageY`. -/
  pageY : ℚ
  /-- Value of `e.scale`; `none` when the event has no such property. -/
  scale : Option ℚ
  deriving DecidableEq, Repr

/-- The guard of `onTouchMove`: `e.touches.length > 1 || e.scale && e.scale !== 1`. -/
def isPinch (e : TouchEvent) : Bool :=
  decide (e.touches > 1) ||
    (match e.scale with
     | none => false
     | some k => decide (k ≠ 0) && decide (k ≠ 1))

/-- The test `Math.abs(delta.x) < Math.abs(delta.y)` of `onTouchMove`; with
`drag.startY` absent `delta.y` is not a number and the test is false. -/
def verticalDominates (e : TouchEvent) (s : Siema) : Bool :=
  match s.dragStartY with
  | none => false
  | some startY => decide (|e.pageX - toNumber s.dragStart| < |e.pageY - startY|)

/-- Handler `onTouchStart`; `none` when the assignment to `this.drag.start`
throws because `this.drag` is missing. -/
def onTouchStart (e : TouchEvent) (s : Siema) : Option Siema :=
  if s.dragDefined then
    some { s with pointerDown := true, firstMove := true,
                  dragStart := some e.pageX, dragStartY := some e.pageY }
  else none

/-- Handler `onTouchMove`; `none` when it reaches `this.drag` (on the first
move, or when recording the position) while `this.drag` is missing. -/
def onTouchMove (e : TouchEvent) (s : Siema) : Option Siema :=
  if isPinch e then some s
  else if s.firstMove && !s.dragDefined then none
  else if s.firstMove && verticalDominates e s then
    some { s with firstMove := false, verticalScrolling := true }
  else
    let s1 := if s.firstMove then { s with firstMove := false, verticalScrolling := false }
      else s
    if s1.pointerDown && !s1.verticalScrolling then
      if s1.dragDefined then
        some { s1 with dragEnd := some e.pageX,
                       translateX := (slideDistance s1 + (toNumber s1.dragStart - e.pageX)) * -1 }
      else none
    else some s1

/-- Handler `onTouchEnd`; `none` when reading `this.drag.end` throws because
`this.drag` is missing, or when `processMovement` does not return within the
fuel. -/
def onTouchEnd (fuel : Nat) (s : Siema) : Option Siema :=
  let s1 := { s with pointerDown := false, firstMove := true }
  if !s1.dragDefined then none
  else if truthy s1.dragEnd then (updateAfterDrag fuel s1).map clearDrag
  else some (clearDrag s1)

/-- Handler `onMouseDown` of the build version. When `this.drag` is missing the
assignment to `this.drag.start` throws after `pointerDown` has been set; the
result is then the instance as the throw leaves it. -/
def onMouseDown (pageX : ℚ) (s : Siema) : Siema :=
  if s.dragDefined then
    { s with pointerDown := true, dragStart := some pageX, dragged := false }
  else { s with pointerDown := true }

/-- Handler `onMouseMove` of the build version; `none` when the assignment to
`this.drag.end` throws because `this.drag` is missing. -/
def onMouseMove (pageX : ℚ) (s : Siema) : Option Siema :=
  if s.pointerDown then
    if s.dragDefined then
      some { s with dragEnd := some pageX,
                    translateX := (slideDistance s + (toNumber s.dragStart - pageX)) * -1 }
    else none
  else some s

/-- Handler `onMouseUp` of the build version: the drag is processed when
`this.drag.end !== null`; `none` when reading `this.drag.end` throws because
`this.drag` is missing, or when `processMovement` does not return within the
fuel. -/
def onMouseUp (fuel : Nat) (s : Siema) : Option Siema :=
  let s1 := { s with pointerDown := false }
  if !s1.dragDefined then none
  else
    match s1.dragEnd with
    | none => some (clearDrag s1)
    | some _ => (updateAfterDrag fuel s1).map (fun t => clearDrag { t with dragged := true })

/-- The moves of a touch session applied in order; `none` as soon as one of
them throws. -/
def touchMoves : List TouchEvent → Siema → Option Siema
  | [], s => some s
  | e :: rest, s => (onTouchMove e s).bind (touchMoves rest)

/-- A touch session up to its last move: `onTouchStart`, then the moves. -/
def touchSession (start : TouchEvent) (moves : List TouchEvent) (s : Siema) :
    Option Siema :=
  (onTouchStart start s).bind (touchMoves moves)

/-! ## The drag arithmetic in binary64

JavaScript numbers are binary64 values and `a - b` is the exact difference
rounded to the nearest binary64 value, ties to the even significand. The methods
above subtract exactly; the versions below, with the suffix `64`, round the two
subtractions of the drag code (`this.drag.end - this.drag.start` and
`movement - this.selectorWidth`) the way the engine does. Comparisons and
`Math.abs` are exact on binary64 values. Overflow to `Infinity` is outside the
model: the results are meaningful below `2 ^ 1024` in magnitude. -/

/-- The nearest integer, the even one of the two when `q` lies halfway. -/
def roundHalfEven (q : ℚ) : Int :=
  if q - ⌊q⌋ < 1 / 2 then ⌊q⌋
  else if 1 / 2 < q - ⌊q⌋ then ⌊q⌋ + 1
  else if ⌊q⌋ % 2 = 0 then ⌊q⌋ else ⌊q⌋ + 1

/-- The binary64 exponent of `x`: the `e` with `2 ^ e ≤ |x| < 2 ^ (e + 1)`, not
below the exponent `-1022` of the subnormal range. -/
def exponent64 (x : ℚ) : Int := max (Int.log 2 |x|) (-1022)

/-- Rounding to the nearest binary64 value: a multiple of `2 ^ (e - 52)`, where
`e` is the exponent of `x`, chosen by `roundHalfEven`. -/
def round64 (x : ℚ) : ℚ :=
  roundHalfEven (x / 2 ^ (exponent64 x - 52)) * 2 ^ (exponent64 x - 52)

/-- The JavaScript subtraction `a - b` of two numbers. -/
def sub64 (a b : ℚ) : ℚ := round64 (a - b)

/-- Method `processMovement` with binary64 subtraction. -/
def processMovement64 : Nat → ℚ → Bool → Siema → Option Siema
  | 0, _, _, _ => none
  | fuel + 1, movement, toTheRight, s =>
      if movement < s.config.threshold then some s
      else
        processMovement64 fuel (sub64 movement s.selectorWidth) toTheRight
          (if toTheRight then next s else prev s)

/-- Method `processMovement` with binary64 subtraction and a counter of the
`next()`/`prev()` calls made before the recursion returned. -/
def processMovementCount64 : Nat → ℚ → Bool → Siema → Option (Siema × Nat)
  | 0, _, _, _ => none
  | fuel + 1, movement, toTheRight, s =>
      if movement < s.config.threshold then some (s, 0)
      else
        (processMovementCount64 fuel (sub64 movement s.selectorWidth) toTheRight
          (if toTheRight then next s else prev s)).map (fun r => (r.1, r.2 + 1))

/-- Method `updateAfterDrag` of the build version with binary64 subtraction;
`none` when `this.drag` is missing or the recursion does not return within the
fuel. -/
def updateAfterDrag64 (fuel : Nat) (s : Siema) : Option Siema :=
  if !s.dragDefined then none
  else
    let movement := sub64 (toNumber s.dragEnd) (toNumber s.dragStart)
    (processMovement64 fuel |movement| (decide (movement < 0)) s).map slideToCurrent

/-- Method `updateAfterDrag` of the `src/` version with binary64 subtraction;
`none` when `this.drag` is missing. -/
def updateAfterDragSrc64 (s : Siema) : Option Siema :=
  if !s.dragDefined then none
  else
    let movement := sub64 (toNumber s.dragEnd) (toNumber s.dragStart)
    if movement > 0 ∧ |movement| > s.config.threshold then some (slideToCurrent (prev s))
    else if movement < 0 ∧ |movement| > s.config.threshold then
      some (slideToCurrent (next s))
    else some (slideToCurrent s)

/-! ## Specification-side notions -/

/-- The range that the specification gives for the index:
`0 ≤ currentIndex ≤ panelCount - resolvedPanelsPerView`. -/
def Inv (s : Siema) : Prop :=
  0 ≤ s.currentSlide ∧ s.currentSlide ≤ (s.innerElements : Int) - s.perPage

instance (s : Siema) : Decidable (Inv s) := by unfold Inv; infer_instance

/-- States reached from `s₀` by `prev()`, `next()` and completed drags. A drag
is completed by `updateAfterDrag` on whatever start and end positions the
pointer handlers recorded. -/
inductive Reach (s₀ : Siema) : Siema → Prop where
  | start : Reach s₀ s₀
  | prev {s : Siema} : Reach s₀ s → Reach s₀ (prev s)
  | next {s : Siema} : Reach s₀ s → Reach s₀ (next s)
  | drag {s t : Siema} (dragStart dragEnd : Option ℚ) (fuel : Nat) :
      Reach s₀ s →
      updateAfterDrag fuel { s with dragStart := dragStart, dragEnd := dragEnd } = some t →
      Reach s₀ t

/-- The breakpoint rule in the words of the specification, as a relation
between a mapping, a width and a count: the count belongs to the largest
threshold strictly less than the width, or no threshold is strictly less than
the width and the count is 1. -/
def IsLargestThresholdCount (innerWidth : ℚ) (entries : List (ℚ × Int)) (count : Int) :
    Prop :=
  (∃ e ∈ entries, e.1 < innerWidth ∧
      (∀ e' ∈ entries, e'.1 < innerWidth → e'.1 ≤ e.1) ∧ count = e.2) ∨
    ((∀ e ∈ entries, ¬ e.1 < innerWidth) ∧ count = 1)

/-- The breakpoint resolution of the specification: a fixed number is returned
unchanged, a mapping is resolved by `IsLargestThresholdCount`. -/
def SpecResolves (innerWidth : ℚ) : PerPage → Int → Prop
  | PerPage.number n, count => count = n
  | PerPage.object entries, count => IsLargestThresholdCount innerWidth entries count

/-- The thresholds of a mapping are enumerated in strictly ascending order; a
fixed number has nothing to enumerate. -/
def Ascending : PerPage → Prop
  | PerPage.number _ => True
  | PerPage.object entries => entries.Pairwise (fun a b => a.1 < b.1)

/-- The number of steps that the specification gives for `processMovement`:
0 when the movement is below the threshold, otherwise
`floor((movement - threshold) / containerWidth) + 1`. -/
def expectedSteps (movement threshold containerWidth : ℚ) : Nat :=
  if movement < threshold then 0
  else (⌊(movement - threshold) / containerWidth⌋).toNat + 1

/-! ## Example instances -/

/-- A mounted carousel with a change callback, fixed `perPage`, `loop` as given,
`children` panels and a 1000 px wide container. -/
def mounted (perPage : Int) (loop : Bool) (children : Nat) (startIndex : Int) : Siema :=
  componentDidMount
    { perPage := PerPage.number perPage, loop := loop, startIndex := startIndex } true
    { width := 1000, children := children, innerWidth := 1000 }

/-- The breakpoints `{0: 1, 600: 2, 1200: 4}`. -/
def breakpoints : PerPage := PerPage.object [(0, 1), (600, 2), (1200, 4)]

/-- The breakpoints `{1200.5: 4, 600.5: 2}`: the keys are not integers, so they
are enumerated in the order written. -/
def unorderedBreakpoints : PerPage := PerPage.object [(2401 / 2, 4), (1201 / 2, 2)]

/-- A mounted carousel with three panels whose `perPage` comes from
`{0: 1, 600: 3}`, in a window `innerWidth` wide. -/
def responsive (innerWidth : ℚ) : Siema :=
  componentDidMount
    { perPage := PerPage.object [(0, 1), (600, 3)] } true
    { width := innerWidth, children := 3, innerWidth := innerWidth }

/-- A mounted carousel with three panels, `threshold = 0`, a 1000 px wide
container, on which a drag from x = 1000 to x = 0 was recorded. -/
def zeroThresholdDrag : Siema :=
  { componentDidMount { threshold := 0 } true
      { width := 1000, children := 3, innerWidth := 1000 } with
    dragStart := some 1000, dragEnd := some 0 }

/-- A mounted carousel with `children` panels, at index 0, on which a drag from
x = `dragStart` to x = `dragEnd` was recorded. -/
def recordedDrag (children : Nat) (dragStart dragEnd : ℚ) : Siema :=
  { mounted 1 false children 0 with dragStart := some dragStart, dragEnd := some dragEnd }

/-- A single-touch event at `(pageX, pageY)`. -/
def touchAt (pageX pageY : ℚ) : TouchEvent :=
  { touches := 1, pageX := pageX, pageY := pageY, scale := none }

/-- A two-finger touch event whose first touch is at `(pageX, pageY)`. -/
def twoFingersAt (pageX pageY : ℚ) : TouchEvent :=
  { touches := 2, pageX := pageX, pageY := pageY, scale := none }

/-- The binary64 value written `123.33333333333333`. -/
def width123 : ℚ := 8678811781911893 / 70368744177664

/-- A mounted carousel with ten panels, `threshold = 20` and a container
`123.33333333333333` px wide. -/
def narrow : Siema :=
  componentDidMount {} true { width := width123, children := 10, innerWidth := 1000 }

/-- The binary64 value written `128.33333333333334`. -/
def width128 : ℚ := 4515327751400107 / 35184372088832

/-- The binary64 value written `428.3333333333333`. -/
def reach428 : ℚ := 7535319689024853 / 17592186044416

/-- A mounted carousel with five panels at index 2, `threshold = 300` and a
container `128.33333333333334` px wide, on which a drag from x = 0 to
x = `428.3333333333333` was recorded. -/
def fractionalDrag : Siema :=
  { componentDidMount { threshold := 300, startIndex := 2 } true
      { width := width128, children := 5, innerWidth := 1000 } with
    dragStart := some 0, dragEnd := some reach428 }

/-! ## Frame lemmas -/

@[simp] theorem slideToCurrent_currentSlide (s : Siema) :
    (slideToCurrent s).currentSlide = s.currentSlide := by
  unfold slideToCurrent; split <;> rfl

@[simp] theorem slideToCurrent_fired (s : Siema) : (slideToCurrent s).fired = s.fired := by
  unfold slideToCurrent; split <;> rfl

@[simp] theorem slideToCurrent_config (s : Siema) : (slideToCurrent s).config = s.config := by
  unfold slideToCurrent; split <;> rfl

@[simp] theorem slideToCurrent_onAfterChange (s : Siema) :
    (slideToCurrent s).onAfterChange = s.onAfterChange := by
  unfold slideToCurrent; split <;> rfl

@[simp] theorem slideToCurrent_innerElements (s : Siema) :
    (slideToCurrent s).innerElements = s.innerElements := by
  unfold slideToCurrent; split <;> rfl

@[simp] theorem slideToCurrent_perPage (s : Siema) : (slideToCurrent s).perPage = s.perPage := by
  unfold slideToCurrent; split <;> rfl

@[simp] theorem slideToCurrent_selectorWidth (s : Siema) :
    (slideToCurrent s).selectorWidth = s.selectorWidth := by
  unfold slideToCurrent; split <;> rfl

@[simp] theorem fire_currentSlide (s : Siema) : (fire s).currentSlide = s.currentSlide := by
  unfold fire; split <;> rfl

@[simp] theorem fire_config (s : Siema) : (fire s).config = s.config := by
  unfold fire; split <;> rfl

@[simp] theorem fire_onAfterChange (s : Siema) : (fire s).onAfterChange = s.onAfterChange := by
  unfold fire; split <;> rfl

@[simp] theorem fire_innerElements (s : Siema) : (fire s).innerElements = s.innerElements := by
  unfold fire; split <;> rfl

@[simp] theorem fire_perPage (s : Siema) : (fire s).perPage = s.perPage := by
  unfold fire; split <;> rfl

@[simp] theorem fire_selectorWidth (s : Siema) : (fire s).selectorWidth = s.selectorWidth := by
  unfold fire; split <;> rfl

theorem fire_fired (s : Siema) : (fire s).fired = s.fired + (if s.onAfterChange then 1 else 0) := by
  unfold fire; split <;> simp_all

@[simp] theorem next_config (s : Siema) : (next s).config = s.config := by
  unfold next; split <;> (simp; try split) <;> rfl

@[simp] theorem next_onAfterChange (s : Siema) : (next s).onAfterChange = s.onAfterChange := by
  unfold next; split <;> (simp; try split) <;> rfl

@[simp] theorem next_innerElements (s : Siema) : (next s).innerElements = s.innerElements := by
  unfold next; split <;> (simp; try split) <;> rfl

@[simp] theorem next_perPage (s : Siema) : (next s).perPage = s.perPage := by
  unfold next; split <;> (simp; try split) <;> rfl

@[simp] theorem next_selectorWidth (s : Siema) : (next s).selectorWidth = s.selectorWidth := by
  unfold next; split <;> (simp; try split) <;> rfl

@[simp] theorem prev_config (s : Siema) : (prev s).config = s.config := by
  unfold prev; split <;> (simp; try split) <;> rfl

@[simp] theorem prev_onAfterChange (s : Siema) : (prev s).onAfterChange = s.onAfterChange := by
  unfold prev; split <;> (simp; try split) <;> rfl

@[simp] theorem prev_innerElements (s : Siema) : (prev s).innerElements = s.innerElements := by
  unfold prev; split <;> (simp; try split) <;> rfl

@[simp] theorem prev_perPage (s : Siema) : (prev s).perPage = s.perPage := by
  unfold prev; split <;> (simp; try split) <;> rfl

@[simp] theorem prev_selectorWidth (s : Siema) : (prev s).selectorWidth = s.selectorWidth := by
  unfold prev; split <;> (simp; try split) <;> rfl

@[simp] theorem resolveSlidesNumber_perPage (w : ℚ) (s : Siema) :
    (resolveSlidesNumber w s).perPage = resolvePerPage w s.config.perPage := rfl

@[simp] theorem resolveSlidesNumber_currentSlide (w : ℚ) (s : Siema) :
    (resolveSlidesNumber w s).currentSlide = s.currentSlide := rfl

@[simp] theorem resolveSlidesNumber_innerElements (w : ℚ) (s : Siema) :
    (resolveSlidesNumber w s).innerElements = s.innerElements := rfl

@[simp] theorem resolveSlidesNumber_config (w : ℚ) (s : Siema) :
    (resolveSlidesNumber w s).config = s.config := rfl

@[simp] theorem resize_currentSlide (env : Env) (s : Siema) :
    (resize env s).currentSlide = s.currentSlide := rfl

@[simp] theorem resize_innerElements (env : Env) (s : Siema) :
    (resize env s).innerElements = s.innerElements := rfl

@[simp] theorem resize_perPage (env : Env) (s : Siema) :
    (resize env s).perPage = resolvePerPage env.innerWidth s.config.perPage := rfl

@[simp] theorem init_currentSlide (env : Env) (s : Siema) :
    (init env s).currentSlide = s.currentSlide := by
  simp [init]

@[simp] theorem init_innerElements (env : Env) (s : Siema) :
    (init env s).innerElements = env.children := by
  simp [init]

@[simp] theorem init_perPage (env : Env) (s : Siema) :
    (init env s).perPage = resolvePerPage env.innerWidth s.config.perPage := by
  simp [init]

@[simp] theorem init_config (env : Env) (s : Siema) : (init env s).config = s.config := by
  simp [init]

@[simp] theorem init_onAfterChange (env : Env) (s : Siema) :
    (init env s).onAfterChange = s.onAfterChange := by
  simp [init, resolveSlidesNumber]

@[simp] theorem init_fired (env : Env) (s : Siema) : (init env s).fired = s.fired := by
  simp [init, resolveSlidesNumber]

@[simp] theorem init_selectorWidth (env : Env) (s : Siema) :
    (init env s).selectorWidth = env.width := by
  simp [init, resolveSlidesNumber]

@[simp] theorem componentDidMount_currentSlide (c : Config) (cb : Bool) (env : Env) :
    (componentDidMount c cb env).currentSlide = c.startIndex := by
  unfold componentDidMount; split <;> simp

@[simp] theorem componentDidMount_innerElements (c : Config) (cb : Bool) (env : Env) :
    (componentDidMount c cb env).innerElements = env.children := by
  unfold componentDidMount; split <;> simp

@[simp] theorem componentDidMount_perPage (c : Config) (cb : Bool) (env : Env) :
    (componentDidMount c cb env).perPage = resolvePerPage env.innerWidth c.perPage := by
  unfold componentDidMount; split <;> simp

@[simp] theorem componentDidMount_config (c : Config) (cb : Bool) (env : Env) :
    (componentDidMount c cb env).config = c := by
  unfold componentDidMount; split <;> simp

@[simp] theorem componentDidMount_onAfterChange (c : Config) (cb : Bool) (env : Env) :
    (componentDidMount c cb env).onAfterChange = cb := by
  unfold componentDidMount; split <;> simp

@[simp] theorem componentDidMount_fired (c : Config) (cb : Bool) (env : Env) :
    (componentDidMount c cb env).fired = 0 := by
  unfold componentDidMount; split <;> simp

@[simp] theorem componentDidMount_selectorWidth (c : Config) (cb : Bool) (env : Env) :
    (componentDidMount c cb env).selectorWidth = env.width := by
  unfold componentDidMount; split <;> simp

@[simp] theorem componentDidUpdate_currentSlide (c : Config) (cb : Bool) (env : Env)
    (s : Siema) : (componentDidUpdate c cb env s).currentSlide = s.currentSlide := by
  simp [componentDidUpdate]

@[simp] theorem componentDidUpdate_innerElements (c : Config) (cb : Bool) (env : Env)
    (s : Siema) : (componentDidUpdate c cb env s).innerElements = env.children := by
  simp [componentDidUpdate]

@[simp] theorem componentDidUpdate_perPage (c : Config) (cb : Bool) (env : Env)
    (s : Siema) :
    (componentDidUpdate c cb env s).perPage = resolvePerPage env.innerWidth c.perPage := by
  simp [componentDidUpdate]

theorem next_index (s : Siema) :
    (next s).currentSlide =
      if s.currentSlide = (s.innerElements : Int) - s.perPage ∧ s.config.loop = true then 0
      else min (s.currentSlide + 1) ((s.innerElements : Int) - s.perPage) := by
  unfold next
  split
  · simp
  · simp only [slideToCurrent_currentSlide]
    split <;> rfl

theorem prev_index (s : Siema) :
    (prev s).currentSlide =
      if s.currentSlide = 0 ∧ s.config.loop = true then (s.innerElements : Int) - s.perPage
      else max (s.currentSlide - 1) 0 := by
  unfold prev
  split
  · simp
  · simp only [slideToCurrent_currentSlide]
    split <;> rfl

theorem next_fired (s : Siema) :
    (next s).fired = s.fired +
      (if s.onAfterChange = true ∧
          ((s.currentSlide = (s.innerElements : Int) - s.perPage ∧ s.config.loop = true) ∨
            (next s).currentSlide ≠ s.currentSlide) then 1 else 0) := by
  unfold next
  by_cases h : s.currentSlide = (s.innerElements : Int) - s.perPage ∧ s.config.loop = true
  · simp only [h, and_self, if_true, slideToCurrent_fired, fire_fired, true_or, and_true]
  · simp only [h, if_false, slideToCurrent_fired, slideToCurrent_currentSlide, false_or]
    by_cases hc : min (s.currentSlide + 1) ((s.innerElements : Int) - s.perPage) = s.currentSlide
    · simp [hc]
    · cases hcb : s.onAfterChange <;> simp [hc, hcb]

theorem prev_fired (s : Siema) :
    (prev s).fired = s.fired +
      (if s.onAfterChange = true ∧
          ((s.currentSlide = 0 ∧ s.config.loop = true) ∨
            (prev s).currentSlide ≠ s.currentSlide) then 1 else 0) := by
  unfold prev
  by_cases h : s.currentSlide = 0 ∧ s.config.loop = true
  · simp only [h, and_self, if_true, slideToCurrent_fired, fire_fired, true_or, and_true]
  · simp only [h, if_false, slideToCurrent_fired, slideToCurrent_currentSlide, false_or]
    by_cases hc : max (s.currentSlide - 1) 0 = s.currentSlide
    · simp [hc]
    · cases hcb : s.onAfterChange <;> simp [hc, hcb]

@[simp] theorem goTo_currentSlide (index : Int) (s : Siema) :
    (goTo index s).currentSlide = min (max index 0) ((s.innerElements : Int) - 1) := by
  simp [goTo]

@[simp] theorem goTo_innerElements (index : Int) (s : Siema) :
    (goTo index s).innerElements = s.innerElements := by
  simp [goTo]

@[simp] theorem goTo_perPage (index : Int) (s : Siema) :
    (goTo index s).perPage = s.perPage := by
  simp [goTo]

theorem goTo_fired (index : Int) (s : Siema) :
    (goTo index s).fired = s.fired + (if s.onAfterChange then 1 else 0) := by
  simp [goTo, fire_fired]

@[simp] theorem mounted_currentSlide (p : Int) (l : Bool) (n : Nat) (i : Int) :
    (mounted p l n i).currentSlide = i := by
  simp [mounted]

@[simp] theorem mounted_innerElements (p : Int) (l : Bool) (n : Nat) (i : Int) :
    (mounted p l n i).innerElements = n := by
  simp [mounted]

@[simp] theorem mounted_perPage (p : Int) (l : Bool) (n : Nat) (i : Int) :
    (mounted p l n i).perPage = p := by
  simp [mounted, resolvePerPage]

@[simp] theorem mounted_loop (p : Int) (l : Bool) (n : Nat) (i : Int) :
    (mounted p l n i).config.loop = l := by
  simp [mounted]

@[simp] theorem mounted_onAfterChange (p : Int) (l : Bool) (n : Nat) (i : Int) :
    (mounted p l n i).onAfterChange = true := by
  simp [mounted]

@[simp] theorem mounted_fired (p : Int) (l : Bool) (n : Nat) (i : Int) :
    (mounted p l n i).fired = 0 := by
  simp [mounted]

/-! ## Navigation: `next` and `prev` -/

/-- C1: `next()` wraps to 0 when `currentSlide` equals
`innerElements.length - perPage` and `loop` is enabled, and otherwise moves to
`min(currentSlide + 1, innerElements.length - perPage)`. -/
theorem next_currentSlide (s : Siema) :
    (next s).currentSlide =
      if s.currentSlide = (s.innerElements : Int) - s.perPage ∧ s.config.loop = true then 0
      else min (s.currentSlide + 1) ((s.innerElements : Int) - s.perPage) := by
  unfold next
  split
  · rw [slideToCurrent_currentSlide, fire_currentSlide]
  · rw [slideToCurrent_currentSlide]
    split <;> rfl

/-- C2: `prev()` wraps to `innerElements.length - perPage` when `currentSlide`
is 0 and `loop` is enabled, and otherwise moves to `max(currentSlide - 1, 0)`. -/
theorem prev_currentSlide (s : Siema) :
    (prev s).currentSlide =
      if s.currentSlide = 0 ∧ s.config.loop = true then (s.innerElements : Int) - s.perPage
      else max (s.currentSlide - 1) 0 := by
  unfold prev
  split
  · rw [slideToCurrent_currentSlide, fire_currentSlide]
  · rw [slideToCurrent_currentSlide]
    split <;> rfl

/-! ## `goTo` -/

/-- C3, counterexample: on a carousel without panels `goTo(0)` stores the index
`-1`, which is outside `0 ≤ currentSlide ≤ innerElements.length - 1`. -/
theorem goTo_no_panels_out_of_range :
    ¬ (0 ≤ (goTo 0 (mounted 1 false 0 0)).currentSlide ∧
        (goTo 0 (mounted 1 false 0 0)).currentSlide ≤
          ((mounted 1 false 0 0).innerElements : Int) - 1) := by
  simp

/-- C3, amended: with at least one panel, `goTo(index)` stores an index in
`0 ≤ currentSlide ≤ innerElements.length - 1` for every integer `index`, and
calls `onAfterChange` exactly once when it is provided (never otherwise),
whether or not the index changed. -/
theorem goTo_clamps (s : Siema) (index : Int) (h : 1 ≤ s.innerElements) :
    0 ≤ (goTo index s).currentSlide ∧
      (goTo index s).currentSlide ≤ ((goTo index s).innerElements : Int) - 1 ∧
      (goTo index s).fired = s.fired + (if s.onAfterChange then 1 else 0) := by
  refine ⟨?_, ?_, goTo_fired index s⟩
  · rw [goTo_currentSlide]
    have : (1 : Int) ≤ s.innerElements := by exact_mod_cast h
    exact le_min (le_max_right _ _) (by omega)
  · rw [goTo_currentSlide, goTo_innerElements]
    exact min_le_right _ _

/-- Witness for `goTo_clamps`: three panels, `goTo(-7)` from index 0. -/
theorem goTo_clamps_witness :
    1 ≤ (mounted 1 false 3 0).innerElements ∧
      0 ≤ (goTo (-7) (mounted 1 false 3 0)).currentSlide ∧
      (goTo (-7) (mounted 1 false 3 0)).currentSlide ≤
        ((goTo (-7) (mounted 1 false 3 0)).innerElements : Int) - 1 ∧
      (goTo (-7) (mounted 1 false 3 0)).fired =
        (mounted 1 false 3 0).fired + (if (mounted 1 false 3 0).onAfterChange then 1 else 0) :=
  ⟨by simp, goTo_clamps (mounted 1 false 3 0) (-7) (by simp)⟩

/-! ## The change callback of `next` and `prev` -/

/-- C4, evaluation at the failing input: one panel, `perPage = 1`, `loop`
enabled, index 0. Both `next()` and `prev()` take the wrap-around branch, leave
the index at 0 and still call `onAfterChange` once. -/
theorem wrap_fires_without_change :
    (next (mounted 1 true 1 0)).currentSlide = (mounted 1 true 1 0).currentSlide ∧
      (next (mounted 1 true 1 0)).fired = (mounted 1 true 1 0).fired + 1 ∧
      (prev (mounted 1 true 1 0)).currentSlide = (mounted 1 true 1 0).currentSlide ∧
      (prev (mounted 1 true 1 0)).fired = (mounted 1 true 1 0).fired + 1 := by
  simp [next_index, prev_index, next_fired, prev_fired]

/-! ## The index range as an invariant -/

theorem inv_next (s : Siema) (h : Inv s) : Inv (next s) := by
  unfold Inv at *
  rw [next_index, next_innerElements, next_perPage]
  split
  · omega
  · exact ⟨le_min (by omega) (by omega), min_le_right _ _⟩

theorem inv_prev (s : Siema) (h : Inv s) : Inv (prev s) := by
  unfold Inv at *
  rw [prev_index, prev_innerElements, prev_perPage]
  split
  · omega
  · exact ⟨le_max_right _ _, max_le (by omega) (by omega)⟩

theorem inv_slideToCurrent (s : Siema) (h : Inv s) : Inv (slideToCurrent s) := by
  unfold Inv at *
  simpa using h

theorem inv_processMovement :
    ∀ (fuel : Nat) (movement : ℚ) (toTheRight : Bool) (s t : Siema),
      Inv s → processMovement fuel movement toTheRight s = some t → Inv t
  | 0, _, _, _, _, _, h => by simp [processMovement] at h
  | fuel + 1, movement, toTheRight, s, t, hs, h => by
      rw [processMovement] at h
      split at h
      · cases h
        exact hs
      · refine inv_processMovement fuel _ toTheRight _ t ?_ h
        cases toTheRight
        · simpa using inv_prev s hs
        · simpa using inv_next s hs

theorem inv_updateAfterDrag (fuel : Nat) (s t : Siema) (hs : Inv s)
    (h : updateAfterDrag fuel s = some t) : Inv t := by
  unfold updateAfterDrag at h
  simp only [Option.map_eq_some'] at h
  obtain ⟨u, hu, rfl⟩ := h
  exact inv_slideToCurrent u (inv_processMovement fuel _ _ s u hs hu)

/-- C5, counterexample: three reachable states outside
`0 ≤ currentSlide ≤ innerElements.length - perPage`.
With three panels and `perPage = 2`, `goTo(2)` stores 2 although the bound is 1.
With three panels and breakpoints `{0: 1, 600: 3}`, two `next()` calls in a 500 px
window store 2, and a resize to 800 px re-resolves `perPage` to 3 and keeps 2
although the bound is now 0. A prop update that raises `perPage` from 1 to 3 does
the same. Each of the three states before the operation is within the range. -/
theorem index_range_not_preserved :
    (Inv (mounted 2 false 3 0) ∧ ¬ Inv (goTo 2 (mounted 2 false 3 0))) ∧
      (Inv (next (next (responsive 500))) ∧
        ¬ Inv (resize { width := 800, children := 3, innerWidth := 800 }
          (next (next (responsive 500))))) ∧
      (Inv (next (next (mounted 1 false 3 0))) ∧
        ¬ Inv (componentDidUpdate { perPage := PerPage.number 3 } true
          { width := 1000, children := 3, innerWidth := 1000 }
          (next (next (mounted 1 false 3 0))))) := by
  refine ⟨⟨?_, ?_⟩, ⟨?_, ?_⟩, ⟨?_, ?_⟩⟩ <;>
    simp [Inv, next_index, responsive, resolvePerPage, resolveLoop] <;> norm_num

/-- C5, amended: after a mount with a valid `startIndex`
(`0 ≤ startIndex ≤ innerElements.length - perPage` for the resolved `perPage`),
every state reached through `prev()`, `next()` and completed drags satisfies
`0 ≤ currentSlide ≤ innerElements.length - perPage`. -/
theorem index_range_of_reach (config : Config) (onAfterChange : Bool) (env : Env)
    (s : Siema) (h0 : 0 ≤ config.startIndex)
    (h1 : config.startIndex ≤
      (env.children : Int) - resolvePerPage env.innerWidth config.perPage)
    (hr : Reach (componentDidMount config onAfterChange env) s) : Inv s := by
  induction hr with
  | start => simpa [Inv] using And.intro h0 h1
  | prev _ ih => exact inv_prev _ ih
  | next _ ih => exact inv_next _ ih
  | drag a b fuel _ hd ih => exact inv_updateAfterDrag fuel _ _ (by simpa [Inv] using ih) hd

/-- Witness for `index_range_of_reach`: three panels, `perPage = 1`, mounted at
index 0, then `next()`, then a drag from x = 500 to x = 200, which makes one
more `next()`. -/
theorem index_range_of_reach_witness :
    Inv (slideToCurrent (next
      { next (mounted 1 false 3 0) with dragStart := some 500, dragEnd := some 200 })) :=
  index_range_of_reach
    { perPage := PerPage.number 1, loop := false, startIndex := 0 } true
    { width := 1000, children := 3, innerWidth := 1000 } _
    (by decide) (by simp [resolvePerPage])
    (Reach.drag (some 500) (some 200) 2 (Reach.next Reach.start)
      (by
        simp [updateAfterDrag, processMovement, toNumber, mounted]
        norm_num [abs_of_neg]))

/-! ## Repeated steps without loop -/

theorem iterate_next_frame (s : Siema) (k : Nat) :
    (next^[k] s).config = s.config ∧ (next^[k] s).innerElements = s.innerElements ∧
      (next^[k] s).perPage = s.perPage := by
  induction k with
  | zero => simp
  | succ k ih => simp [Function.iterate_succ_apply', ih]

theorem iterate_prev_frame (s : Siema) (k : Nat) :
    (prev^[k] s).config = s.config ∧ (prev^[k] s).innerElements = s.innerElements ∧
      (prev^[k] s).perPage = s.perPage := by
  induction k with
  | zero => simp
  | succ k ih => simp [Function.iterate_succ_apply', ih]

/-- C6: with `loop = false`, from every state and for every `k ≥ 1`, after `k`
consecutive `next()` calls `currentSlide ≤ innerElements.length - perPage`, and
after `k` consecutive `prev()` calls `0 ≤ currentSlide`. -/
theorem repeated_steps_bounded (s : Siema) (k : Nat) (hloop : s.config.loop = false)
    (hk : 1 ≤ k) :
    (next^[k] s).currentSlide ≤ (s.innerElements : Int) - s.perPage ∧
      0 ≤ (prev^[k] s).currentSlide := by
  obtain ⟨k, rfl⟩ : ∃ j, k = j + 1 := ⟨k - 1, by omega⟩
  obtain ⟨hc, hn, hp⟩ := iterate_next_frame s k
  obtain ⟨hc', -, -⟩ := iterate_prev_frame s k
  constructor
  · rw [Function.iterate_succ_apply', next_index, hc, hn, hp, hloop]
    simp
  · rw [Function.iterate_succ_apply', prev_index, hc', hloop]
    simp

/-- Witness for `repeated_steps_bounded`: three panels, `perPage = 1`, five
calls from index 0. -/
theorem repeated_steps_bounded_witness :
    (mounted 1 false 3 0).config.loop = false ∧ 1 ≤ 5 ∧
      (next^[5] (mounted 1 false 3 0)).currentSlide ≤
        ((mounted 1 false 3 0).innerElements : Int) - (mounted 1 false 3 0).perPage ∧
      0 ≤ (prev^[5] (mounted 1 false 3 0)).currentSlide :=
  ⟨by simp, by decide, repeated_steps_bounded (mounted 1 false 3 0) 5 (by simp) (by decide)⟩

/-! ## Round trip -/

/-- C7: from an index strictly between 0 and `innerElements.length - perPage`,
whatever `loop` is, `prev()` followed by `next()` restores `currentSlide`, and
`onAfterChange` is called exactly twice when it is provided (never otherwise). -/
theorem prev_next_round_trip (s : Siema) (h0 : 0 < s.currentSlide)
    (h1 : s.currentSlide < (s.innerElements : Int) - s.perPage) :
    (next (prev s)).currentSlide = s.currentSlide ∧
      (next (prev s)).fired = s.fired + (if s.onAfterChange then 2 else 0) := by
  have hp : (prev s).currentSlide = s.currentSlide - 1 := by
    rw [prev_index, if_neg (by omega)]
    exact max_eq_left (by omega)
  have hn : (next (prev s)).currentSlide = s.currentSlide := by
    rw [next_index, hp, prev_innerElements, prev_perPage, if_neg (by omega)]
    rw [min_eq_left (by omega)]
    omega
  refine ⟨hn, ?_⟩
  rw [next_fired, prev_fired, hn, hp, prev_onAfterChange, prev_innerElements, prev_perPage]
  cases s.onAfterChange
  · simp
  · have e1 : s.currentSlide - 1 ≠ s.currentSlide := by omega
    have e2 : s.currentSlide ≠ s.currentSlide - 1 := by omega
    simp [e1, e2]

/-- Witness for `prev_next_round_trip`: five panels, `perPage = 1`, index 2. -/
theorem prev_next_round_trip_witness :
    0 < (mounted 1 true 5 2).currentSlide ∧
      (mounted 1 true 5 2).currentSlide <
        ((mounted 1 true 5 2).innerElements : Int) - (mounted 1 true 5 2).perPage ∧
      (next (prev (mounted 1 true 5 2))).currentSlide = (mounted 1 true 5 2).currentSlide ∧
      (next (prev (mounted 1 true 5 2))).fired =
        (mounted 1 true 5 2).fired + (if (mounted 1 true 5 2).onAfterChange then 2 else 0) :=
  ⟨by simp, by simp, prev_next_round_trip (mounted 1 true 5 2) (by simp) (by simp)⟩

/-! ## Breakpoint resolution -/

theorem resolveLoop_ascending (w : ℚ) :
    ∀ (entries : List (ℚ × Int)) (d : Int), entries.Pairwise (fun a b => a.1 < b.1) →
      ((∀ e ∈ entries, ¬ e.1 < w) ∧ resolveLoop w entries d = d) ∨
        (∃ e ∈ entries, e.1 < w ∧ (∀ e' ∈ entries, e'.1 < w → e'.1 ≤ e.1) ∧
          resolveLoop w entries d = e.2)
  | [], d, _ => Or.inl ⟨by simp, rfl⟩
  | (v, c) :: rest, d, h => by
      rw [List.pairwise_cons] at h
      obtain ⟨hv, hrest⟩ := h
      rw [resolveLoop]
      rcases resolveLoop_ascending w rest (if w > v then c else d) hrest with
        ⟨hnone, hres⟩ | ⟨e, he, hew, hmax, hres⟩
      · by_cases hvw : v < w
        · refine Or.inr ⟨(v, c), List.mem_cons_self _ _, hvw, ?_, ?_⟩
          · intro e' he' hlt
            rcases List.mem_cons.mp he' with rfl | hmem
            · exact le_refl _
            · exact absurd hlt (hnone e' hmem)
          · rw [hres, if_pos hvw]
        · refine Or.inl ⟨?_, ?_⟩
          · intro e' he'
            rcases List.mem_cons.mp he' with rfl | hmem
            · exact hvw
            · exact hnone e' hmem
          · rw [hres, if_neg hvw]
      · refine Or.inr ⟨e, List.mem_cons_of_mem _ he, hew, ?_, hres⟩
        intro e' he' hlt
        rcases List.mem_cons.mp he' with rfl | hmem
        · exact le_of_lt (hv e he)
        · exact hmax e' hmem hlt

/-- C8, counterexample: with the mapping `{1200.5: 4, 600.5: 2}`, whose keys are
enumerated in the order written, and a 1300 px window, `resolveSlidesNumber`
sets `perPage` to 2, the count enumerated last; the largest threshold below 1300
is 1200.5, with count 4. -/
theorem last_enumerated_threshold_wins :
    (resolveSlidesNumber 1300
        (componentDidMount { perPage := unorderedBreakpoints } true
          { width := 1300, children := 6, innerWidth := 1300 })).perPage = 2 ∧
      ¬ SpecResolves 1300 unorderedBreakpoints
        (resolveSlidesNumber 1300
          (componentDidMount { perPage := unorderedBreakpoints } true
            { width := 1300, children := 6, innerWidth := 1300 })).perPage := by
  have h : (resolveSlidesNumber 1300
      (componentDidMount { perPage := unorderedBreakpoints } true
        { width := 1300, children := 6, innerWidth := 1300 })).perPage = 2 := by
    simp [unorderedBreakpoints, resolvePerPage, resolveLoop]
    norm_num
  refine ⟨h, ?_⟩
  rw [h]
  simp only [SpecResolves, unorderedBreakpoints, IsLargestThresholdCount]
  norm_num

/-- C8, amended: when the thresholds of the mapping are enumerated in strictly
ascending order, `resolveSlidesNumber` sets `perPage` to the count of the largest
threshold strictly less than `window.innerWidth`, and to 1 if no threshold is
strictly less than it; a fixed number is stored unchanged. -/
theorem resolveSlidesNumber_ascending (innerWidth : ℚ) (s : Siema)
    (h : Ascending s.config.perPage) :
    SpecResolves innerWidth s.config.perPage (resolveSlidesNumber innerWidth s).perPage := by
  rw [resolveSlidesNumber_perPage]
  cases hc : s.config.perPage with
  | number n => rfl
  | object entries =>
      rw [hc] at h
      rcases resolveLoop_ascending innerWidth entries 1 h with ⟨hnone, hres⟩ | ⟨e, he⟩
      · exact Or.inr ⟨hnone, hres⟩
      · exact Or.inl ⟨e, he⟩

/-- Witness for `resolveSlidesNumber_ascending`: the breakpoints
`{0: 1, 600: 2, 1200: 4}` in an 800 px window. -/
theorem resolveSlidesNumber_ascending_witness :
    Ascending breakpoints ∧
      SpecResolves 800 breakpoints
        (resolveSlidesNumber 800
          (componentDidMount { perPage := breakpoints } true
            { width := 800, children := 6, innerWidth := 800 })).perPage :=
  ⟨by simp only [Ascending, breakpoints, List.pairwise_cons]; norm_num,
    by
      simpa using resolveSlidesNumber_ascending 800
        (componentDidMount { perPage := breakpoints } true
          { width := 800, children := 6, innerWidth := 800 })
        (by simp only [componentDidMount_config, Ascending, breakpoints, List.pairwise_cons]
            norm_num)⟩

/-- C9: with the breakpoints `{0: 1, 600: 2, 1200: 4}` enumerated in that
order, `resolveSlidesNumber` sets `perPage` to 2 at width 800, to 4 at width 1300
and to 1 at width 100. -/
theorem breakpoints_example (s : Siema) :
    (resolveSlidesNumber 800
        { s with config := { s.config with perPage := breakpoints } }).perPage = 2 ∧
      (resolveSlidesNumber 1300
        { s with config := { s.config with perPage := breakpoints } }).perPage = 4 ∧
      (resolveSlidesNumber 100
        { s with config := { s.config with perPage := breakpoints } }).perPage = 1 := by
  simp only [resolveSlidesNumber_perPage, breakpoints, resolvePerPage, resolveLoop]
  norm_num

/-! ## Offset -/

/-- C10: for `perPage ≥ 1`, `selectorWidth ≥ 0` and indices `0 ≤ i ≤ j`, the
offset that `slideToCurrent` sets at index `i` is
`-(i * (selectorWidth / perPage))`, the offset at `j` is at most the offset at
`i`, and the offset at index 0 is 0. -/
theorem slideToCurrent_offset (s : Siema) (i j : Int) (hp : 1 ≤ s.perPage)
    (hw : 0 ≤ s.selectorWidth) (hi : 0 ≤ i) (hij : i ≤ j) :
    (slideToCurrent { s with currentSlide := i }).translateX =
        -((i : ℚ) * (s.selectorWidth / (s.perPage : ℚ))) ∧
      (slideToCurrent { s with currentSlide := j }).translateX ≤
        (slideToCurrent { s with currentSlide := i }).translateX ∧
      (slideToCurrent { s with currentSlide := 0 }).translateX = 0 := by
  have hp' : (0 : ℚ) ≤ (s.perPage : ℚ) := by exact_mod_cast (by omega : (0 : Int) ≤ s.perPage)
  have hu : 0 ≤ s.selectorWidth / (s.perPage : ℚ) := div_nonneg hw hp'
  have key : ∀ k : Int, 0 ≤ k →
      (slideToCurrent { s with currentSlide := k }).translateX =
        -((k : ℚ) * (s.selectorWidth / (s.perPage : ℚ))) := by
    intro k hk
    have hk' : (0 : ℚ) ≤ (k : ℚ) := by exact_mod_cast hk
    have hd : 0 ≤ slideDistance { s with currentSlide := k } := mul_nonneg hk' hu
    rw [slideToCurrent, if_pos hd]
    rfl
  refine ⟨key i hi, ?_, ?_⟩
  · rw [key i hi, key j (le_trans hi hij)]
    have hij' : (i : ℚ) ≤ (j : ℚ) := by exact_mod_cast hij
    exact neg_le_neg (mul_le_mul_of_nonneg_right hij' hu)
  · rw [key 0 (le_refl 0)]
    simp

/-- Witness for `slideToCurrent_offset`: five panels, `perPage = 2`, a
1000 px container, indices 1 and 3. -/
theorem slideToCurrent_offset_witness :
    1 ≤ (mounted 2 false 5 0).perPage ∧ 0 ≤ (mounted 2 false 5 0).selectorWidth ∧
      (slideToCurrent { mounted 2 false 5 0 with currentSlide := 1 }).translateX =
        -(((1 : Int) : ℚ) *
          ((mounted 2 false 5 0).selectorWidth / ((mounted 2 false 5 0).perPage : ℚ))) ∧
      (slideToCurrent { mounted 2 false 5 0 with currentSlide := 3 }).translateX ≤
        (slideToCurrent { mounted 2 false 5 0 with currentSlide := 1 }).translateX ∧
      (slideToCurrent { mounted 2 false 5 0 with currentSlide := 0 }).translateX = 0 :=
  ⟨by simp, by simp [mounted],
    slideToCurrent_offset (mounted 2 false 5 0) 1 3 (by simp) (by simp [mounted])
      (by decide) (by decide)⟩

/-! ## Counting the steps of `processMovement` -/

@[simp] theorem navigate_config (d : Bool) (s : Siema) :
    (navigate d s).config = s.config := by
  cases d <;> simp [navigate]

@[simp] theorem navigate_selectorWidth (d : Bool) (s : Siema) :
    (navigate d s).selectorWidth = s.selectorWidth := by
  cases d <;> simp [navigate]

@[simp] theorem navigate_innerElements (d : Bool) (s : Siema) :
    (navigate d s).innerElements = s.innerElements := by
  cases d <;> simp [navigate]

@[simp] theorem navigate_perPage (d : Bool) (s : Siema) :
    (navigate d s).perPage = s.perPage := by
  cases d <;> simp [navigate]

theorem processMovement_eq_count :
    ∀ (fuel : Nat) (movement : ℚ) (d : Bool) (s : Siema),
      processMovement fuel movement d s =
        (processMovementCount fuel movement d s).map Prod.fst
  | 0, _, _, _ => rfl
  | fuel + 1, movement, d, s => by
      rw [processMovement, processMovementCount]
      split
      · rfl
      · rw [processMovement_eq_count fuel, Option.map_map]
        rfl

theorem expectedSteps_below (m thr w : ℚ) (h : m < thr) : expectedSteps m thr w = 0 := by
  simp [expectedSteps, h]

theorem expectedSteps_step (m thr w : ℚ) (hw : 0 < w) (h : thr ≤ m) :
    expectedSteps m thr w = expectedSteps (m - w) thr w + 1 := by
  have hm : ¬ m < thr := not_lt.mpr h
  by_cases h' : m - w < thr
  · have hfloor : ⌊(m - thr) / w⌋ = 0 := by
      rw [Int.floor_eq_iff]
      refine ⟨?_, ?_⟩
      · simpa using div_nonneg (sub_nonneg.mpr h) (le_of_lt hw)
      · have : (m - thr) / w < 1 := (div_lt_one hw).mpr (by linarith)
        simpa using this
    simp [expectedSteps, hm, h', hfloor]
  · have hge : thr ≤ m - w := not_lt.mp h'
    have hdiv : (m - w - thr) / w = (m - thr) / w - 1 := by
      field_simp
      ring
    have hone : (1 : Int) ≤ ⌊(m - thr) / w⌋ := by
      rw [Int.le_floor]
      have : 1 ≤ (m - thr) / w := (one_le_div hw).mpr (by linarith)
      simpa using this
    simp only [expectedSteps, hm, h', if_false, hdiv, Int.floor_sub_one]
    omega

theorem processMovementCount_eq (d : Bool) :
    ∀ (fuel : Nat) (movement : ℚ) (s : Siema), 0 < s.selectorWidth →
      expectedSteps movement s.config.threshold s.selectorWidth < fuel →
      processMovementCount fuel movement d s =
        some ((navigate d)^[expectedSteps movement s.config.threshold s.selectorWidth] s,
          expectedSteps movement s.config.threshold s.selectorWidth)
  | 0, _, _, _, hf => absurd hf (Nat.not_lt_zero _)
  | fuel + 1, movement, s, hw, hf => by
      rw [processMovementCount]
      by_cases h : movement < s.config.threshold
      · rw [if_pos h, expectedSteps_below _ _ _ h]
        rfl
      · rw [if_neg h]
        have hstep := expectedSteps_step movement s.config.threshold s.selectorWidth hw
          (not_lt.mp h)
        have hlt : expectedSteps (movement - s.selectorWidth) (navigate d s).config.threshold
            (navigate d s).selectorWidth < fuel := by
          rw [navigate_config, navigate_selectorWidth]
          omega
        have ih := processMovementCount_eq d fuel (movement - s.selectorWidth)
          (navigate d s) (by simpa using hw) hlt
        simp only [navigate_config, navigate_selectorWidth] at ih
        change Option.map _ (processMovementCount fuel _ d (navigate d s)) = _
        rw [ih, hstep]
        rfl

theorem expectedSteps_single (m thr w : ℚ) (hthr : 0 < thr) (h1 : thr ≤ m) (h2 : m ≤ w) :
    expectedSteps m thr w = 1 := by
  rw [expectedSteps_step m thr w (by linarith) h1, expectedSteps_below _ _ _ (by linarith)]

theorem updateAfterDrag_eq_count (fuel : Nat) (s : Siema) :
    updateAfterDrag fuel s =
      (processMovementCount fuel |toNumber s.dragEnd - toNumber s.dragStart|
        (decide (toNumber s.dragEnd - toNumber s.dragStart < 0)) s).map
        (fun r => slideToCurrent r.1) := by
  unfold updateAfterDrag
  simp only [processMovement_eq_count, Option.map_map]
  rfl

/-! ## Single-step drags -/

/-- C11, counterexample: with `threshold = 0` and a 1000 px container, a drag
from x = 1000 to x = 0 satisfies `threshold ≤ |end - start| ≤ selectorWidth`, and
`updateAfterDrag` makes two `next()` calls: the index goes from 0 to 2. In the
`src/` version, with `threshold = 20`, a drag from x = 520 to x = 500 satisfies
the same bounds and `updateAfterDrag` makes no call at all: the index stays 0,
where one `next()` would store 1. -/
theorem drag_within_width_not_single_step :
    (zeroThresholdDrag.config.threshold ≤
        |toNumber zeroThresholdDrag.dragEnd - toNumber zeroThresholdDrag.dragStart| ∧
      |toNumber zeroThresholdDrag.dragEnd - toNumber zeroThresholdDrag.dragStart| ≤
        zeroThresholdDrag.selectorWidth ∧
      processMovementCount 3
          |toNumber zeroThresholdDrag.dragEnd - toNumber zeroThresholdDrag.dragStart|
          (decide (toNumber zeroThresholdDrag.dragEnd - toNumber zeroThresholdDrag.dragStart < 0))
          zeroThresholdDrag = some (next (next zeroThresholdDrag), 2) ∧
      zeroThresholdDrag.currentSlide = 0 ∧
      (updateAfterDrag 3 zeroThresholdDrag).map Siema.currentSlide = some 2) ∧
    ((recordedDrag 3 520 500).config.threshold ≤
        |toNumber (recordedDrag 3 520 500).dragEnd -
          toNumber (recordedDrag 3 520 500).dragStart| ∧
      |toNumber (recordedDrag 3 520 500).dragEnd -
          toNumber (recordedDrag 3 520 500).dragStart| ≤
        (recordedDrag 3 520 500).selectorWidth ∧
      updateAfterDragSrc (recordedDrag 3 520 500) = slideToCurrent (recordedDrag 3 520 500) ∧
      (updateAfterDragSrc (recordedDrag 3 520 500)).currentSlide = 0 ∧
      (next (recordedDrag 3 520 500)).currentSlide = 1) := by
  have hc : processMovementCount 3
      |toNumber zeroThresholdDrag.dragEnd - toNumber zeroThresholdDrag.dragStart|
      (decide (toNumber zeroThresholdDrag.dragEnd - toNumber zeroThresholdDrag.dragStart < 0))
      zeroThresholdDrag = some (next (next zeroThresholdDrag), 2) := by
    simp [processMovementCount, zeroThresholdDrag, toNumber]
  have hm : toNumber (recordedDrag 3 520 500).dragEnd -
      toNumber (recordedDrag 3 520 500).dragStart = -20 := by
    simp only [recordedDrag, toNumber, Option.getD_some]
    norm_num
  have ht : (recordedDrag 3 520 500).config.threshold = 20 := by
    simp [recordedDrag, mounted]
  have hsrc : updateAfterDragSrc (recordedDrag 3 520 500) =
      slideToCurrent (recordedDrag 3 520 500) := by
    simp only [updateAfterDragSrc, hm, ht]
    norm_num [abs_of_neg]
  refine ⟨⟨?_, ?_, hc, ?_, ?_⟩, ?_, ?_, hsrc, ?_, ?_⟩
  · simp [zeroThresholdDrag, toNumber]
  · simp [zeroThresholdDrag, toNumber]
  · simp [zeroThresholdDrag]
  · rw [updateAfterDrag_eq_count, hc]
    simp [next_index, zeroThresholdDrag, resolvePerPage]
  · rw [hm, ht]
    norm_num [abs_of_neg]
  · rw [hm]
    simp only [recordedDrag, mounted, componentDidMount_selectorWidth]
    norm_num [abs_of_neg]
  · rw [hsrc]
    simp [recordedDrag]
  · simp [next_index, recordedDrag]

/-- C11, amended: with `threshold > 0`, for every recorded drag with
`threshold ≤ |end - start| ≤ selectorWidth`, `updateAfterDrag` returns after
exactly one navigation call, `next()` when `end < start` and `prev()` when
`end > start` (the two positions differ). `updateAfterDrag` of the `src/` version
makes the same single call when moreover `|end - start| ≠ threshold`. -/
theorem single_step_drag (s : Siema) (fuel : Nat) (hthr : 0 < s.config.threshold)
    (h1 : s.config.threshold ≤ |toNumber s.dragEnd - toNumber s.dragStart|)
    (h2 : |toNumber s.dragEnd - toNumber s.dragStart| ≤ s.selectorWidth) :
    toNumber s.dragEnd ≠ toNumber s.dragStart ∧
      processMovementCount (fuel + 2) |toNumber s.dragEnd - toNumber s.dragStart|
          (decide (toNumber s.dragEnd - toNumber s.dragStart < 0)) s =
        some (if toNumber s.dragEnd < toNumber s.dragStart then next s else prev s, 1) ∧
      updateAfterDrag (fuel + 2) s =
        some (slideToCurrent
          (if toNumber s.dragEnd < toNumber s.dragStart then next s else prev s)) ∧
      (|toNumber s.dragEnd - toNumber s.dragStart| ≠ s.config.threshold →
        updateAfterDragSrc s =
          slideToCurrent
            (if toNumber s.dragEnd < toNumber s.dragStart then next s else prev s)) := by
  have hne : toNumber s.dragEnd ≠ toNumber s.dragStart := by
    intro h
    rw [h, sub_self, abs_zero] at h1
    exact absurd hthr (not_lt.mpr h1)
  have hes := expectedSteps_single _ _ _ hthr h1 h2
  have hc := processMovementCount_eq (decide (toNumber s.dragEnd - toNumber s.dragStart < 0))
    (fuel + 2) |toNumber s.dragEnd - toNumber s.dragStart| s (by linarith) (by omega)
  rw [hes] at hc
  have hnav : navigate (decide (toNumber s.dragEnd - toNumber s.dragStart < 0)) s =
      if toNumber s.dragEnd < toNumber s.dragStart then next s else prev s := by
    simp [navigate, sub_neg]
  rw [Function.iterate_one, hnav] at hc
  refine ⟨hne, hc, ?_, ?_⟩
  · rw [updateAfterDrag_eq_count, hc]
    rfl
  · intro hneq
    have hgt : s.config.threshold < |toNumber s.dragEnd - toNumber s.dragStart| :=
      lt_of_le_of_ne h1 (Ne.symm hneq)
    rcases lt_or_gt_of_ne (sub_ne_zero.mpr hne) with hneg | hpos
    · have hlt : toNumber s.dragEnd < toNumber s.dragStart := sub_neg.mp hneg
      have h0 : ¬ toNumber s.dragEnd - toNumber s.dragStart > 0 := not_lt.mpr (le_of_lt hneg)
      simp [updateAfterDragSrc, h0, hneg, hgt, hlt]
    · have hlt : ¬ toNumber s.dragEnd < toNumber s.dragStart :=
        not_lt.mpr (le_of_lt (sub_pos.mp hpos))
      simp [updateAfterDragSrc, hpos, hgt, hlt]

/-- Witness for `single_step_drag`: container 1000 px, `perPage = 1`,
`threshold = 20`, no loop, two panels, index 0, drag from x = 500 to x = 200: one
`next()`, and the index becomes 1. -/
theorem single_step_drag_witness :
    (recordedDrag 2 500 200).config.threshold = 20 ∧
      (recordedDrag 2 500 200).selectorWidth = 1000 ∧
      (recordedDrag 2 500 200).currentSlide = 0 ∧
      updateAfterDrag 2 (recordedDrag 2 500 200) =
        some (slideToCurrent (next (recordedDrag 2 500 200))) ∧
      updateAfterDragSrc (recordedDrag 2 500 200) =
        slideToCurrent (next (recordedDrag 2 500 200)) ∧
      (updateAfterDrag 2 (recordedDrag 2 500 200)).map Siema.currentSlide = some 1 := by
  have h := single_step_drag (recordedDrag 2 500 200) 0
    (by simp [recordedDrag, mounted])
    (by simp [recordedDrag, mounted, toNumber]; norm_num [abs_of_neg])
    (by simp [recordedDrag, mounted, toNumber]; norm_num [abs_of_neg])
  have hlt : toNumber (recordedDrag 2 500 200).dragEnd <
      toNumber (recordedDrag 2 500 200).dragStart := by
    simp only [recordedDrag, toNumber, Option.getD_some]
    norm_num
  rw [if_pos hlt] at h
  refine ⟨by simp [recordedDrag, mounted], by simp [recordedDrag, mounted],
    by simp [recordedDrag], h.2.2.1, ?_, ?_⟩
  · refine h.2.2.2 ?_
    simp only [recordedDrag, mounted, toNumber, Option.getD_some, componentDidMount_config]
    norm_num [abs_of_neg]
  · rw [h.2.2.1]
    simp [next_index, recordedDrag]

/-! ## Click versus drag -/

/-- C12, evaluation at the failing input: right after mount `drag.end` is `0`,
not `null`. A mouse-down at x = 500 followed by a mouse-up, with no mouse-move in
between, is processed as a drag of -500 px: the index goes from 0 to 1 and
`dragged` becomes true. After `clearDrag` has run once the same click leaves the
index at 0 and `dragged` false. -/
theorem click_after_mount_moves_slide :
    (mounted 1 false 2 0).currentSlide = 0 ∧
      (mounted 1 false 2 0).dragEnd = some 0 ∧
      (onMouseUp 2 (onMouseDown 500 (mounted 1 false 2 0))).map Siema.currentSlide = some 1 ∧
      (onMouseUp 2 (onMouseDown 500 (mounted 1 false 2 0))).map Siema.dragged = some true ∧
      (onMouseUp 2 (onMouseDown 500 (clearDrag (mounted 1 false 2 0)))).map Siema.currentSlide =
        some 0 ∧
      (onMouseUp 2 (onMouseDown 500 (clearDrag (mounted 1 false 2 0)))).map Siema.dragged =
        some false := by
  have hend : (mounted 1 false 2 0).dragEnd = some 0 := by
    simp [mounted, componentDidMount]
  have hdef : (mounted 1 false 2 0).dragDefined = true := by
    simp [mounted, componentDidMount]
  have hdown : onMouseDown 500 (mounted 1 false 2 0) =
      { mounted 1 false 2 0 with pointerDown := true, dragStart := some 500,
                                 dragged := false } := by
    simp [onMouseDown, hdef]
  have hdown' : onMouseDown 500 (clearDrag (mounted 1 false 2 0)) =
      { clearDrag (mounted 1 false 2 0) with pointerDown := true, dragStart := some 500,
                                             dragged := false } := by
    simp [onMouseDown, clearDrag]
  have hup : onMouseUp 2 (onMouseDown 500 (mounted 1 false 2 0)) =
      some (clearDrag { slideToCurrent (next
        { onMouseDown 500 (mounted 1 false 2 0) with pointerDown := false }) with
        dragged := true }) := by
    rw [hdown]
    simp only [onMouseUp, hdef, hend, updateAfterDrag_eq_count, processMovementCount]
    simp [toNumber, mounted]
    norm_num
  refine ⟨by simp, hend, ?_, ?_, ?_, ?_⟩
  · rw [hup, hdown]
    simp [clearDrag, next_index]
  · rw [hup]
    simp [clearDrag]
  · rw [hdown']
    simp [onMouseUp, clearDrag]
  · rw [hdown']
    simp [onMouseUp, clearDrag]

/-! ## The step count in exact arithmetic -/

theorem expectedSteps_cast (m thr w : ℚ) (hw : 0 < w) :
    ((expectedSteps m thr w : Nat) : Int) =
      (if m < thr then 0 else ⌊(m - thr) / w⌋ + 1) := by
  unfold expectedSteps
  split
  · rfl
  · rename_i h
    have hnn : 0 ≤ ⌊(m - thr) / w⌋ :=
      Int.floor_nonneg.mpr (div_nonneg (sub_nonneg.mpr (not_lt.mp h)) (le_of_lt hw))
    push_cast
    rw [Int.toNat_of_nonneg hnn]

/-! ## The two versions of `updateAfterDrag` in exact arithmetic -/

theorem expectedSteps_one (m thr w : ℚ) (hw : 0 < w) (h1 : thr ≤ m) (h2 : m < thr + w) :
    expectedSteps m thr w = 1 := by
  rw [expectedSteps_step m thr w hw h1, expectedSteps_below _ _ _ (by linarith)]

theorem updateAfterDrag_exact_eq_src (s : Siema) (fuel : Nat)
    (hthr : 0 < s.config.threshold) (hw : 0 < s.selectorWidth)
    (hne : |toNumber s.dragEnd - toNumber s.dragStart| ≠ s.config.threshold)
    (hlt : |toNumber s.dragEnd - toNumber s.dragStart| <
      s.config.threshold + s.selectorWidth) :
    updateAfterDrag (fuel + 2) s = some (updateAfterDragSrc s) := by
  rw [updateAfterDrag_eq_count]
  by_cases hb : |toNumber s.dragEnd - toNumber s.dragStart| < s.config.threshold
  · have hc := processMovementCount_eq
      (decide (toNumber s.dragEnd - toNumber s.dragStart < 0)) (fuel + 2)
      |toNumber s.dragEnd - toNumber s.dragStart| s hw
      (by rw [expectedSteps_below _ _ _ hb]; omega)
    rw [expectedSteps_below _ _ _ hb] at hc
    rw [hc]
    have hng : ¬ |toNumber s.dragEnd - toNumber s.dragStart| > s.config.threshold :=
      not_lt.mpr (le_of_lt hb)
    simp [updateAfterDragSrc, hng]
  · have hge : s.config.threshold < |toNumber s.dragEnd - toNumber s.dragStart| :=
      lt_of_le_of_ne (not_lt.mp hb) (Ne.symm hne)
    have hes := expectedSteps_one _ _ _ hw (le_of_lt hge) hlt
    have hc := processMovementCount_eq
      (decide (toNumber s.dragEnd - toNumber s.dragStart < 0)) (fuel + 2)
      |toNumber s.dragEnd - toNumber s.dragStart| s hw (by rw [hes]; omega)
    rw [hes] at hc
    rw [hc]
    have hpos : 0 < |toNumber s.dragEnd - toNumber s.dragStart| := lt_trans hthr hge
    rcases lt_or_gt_of_ne (abs_pos.mp hpos) with hneg | hgt
    · have h1 : ¬ toNumber s.dragEnd - toNumber s.dragStart > 0 := not_lt.mpr (le_of_lt hneg)
      simp [updateAfterDragSrc, navigate, h1, hneg, hge]
    · have h1 : ¬ toNumber s.dragEnd - toNumber s.dragStart < 0 := not_lt.mpr (le_of_lt hgt)
      simp [updateAfterDragSrc, navigate, h1, hgt, hge]

/-! ## Touch sessions -/

theorem touchSession_without_drag (e0 : TouchEvent) (moves : List TouchEvent) (s : Siema)
    (h : s.dragDefined = false) : touchSession e0 moves s = none := by
  simp [touchSession, onTouchStart, h]

theorem onTouchMove_pinch (e : TouchEvent) (s : Siema) (h : isPinch e = true) :
    onTouchMove e s = some s := by
  simp [onTouchMove, h]

theorem touchMoves_pinch (s : Siema) :
    ∀ moves : List TouchEvent, (∀ e ∈ moves, isPinch e = true) → touchMoves moves s = some s
  | [], _ => rfl
  | e :: rest, h => by
      have he := h e (List.mem_cons_self _ _)
      have hrest := touchMoves_pinch s rest (fun x hx => h x (List.mem_cons_of_mem _ hx))
      rw [touchMoves, onTouchMove_pinch e s he]
      exact hrest

theorem onTouchMove_vertical (e : TouchEvent) (s : Siema) (hf : s.firstMove = false)
    (hv : s.verticalScrolling = true) : onTouchMove e s = some s := by
  by_cases hp : isPinch e = true
  · exact onTouchMove_pinch e s hp
  · simp [onTouchMove, hp, hf, hv]

theorem touchMoves_vertical :
    ∀ (moves : List TouchEvent) (s : Siema), s.firstMove = false →
      s.verticalScrolling = true → touchMoves moves s = some s
  | [], _, _, _ => rfl
  | e :: rest, s, hf, hv => by
      rw [touchMoves, onTouchMove_vertical e s hf hv]
      exact touchMoves_vertical rest s hf hv

theorem touchMoves_append :
    ∀ (pre rest : List TouchEvent) (s : Siema),
      touchMoves (pre ++ rest) s = (touchMoves pre s).bind (touchMoves rest)
  | [], _, _ => rfl
  | e :: pre, rest, s => by
      rw [List.cons_append, touchMoves, touchMoves]
      cases onTouchMove e s with
      | none => rfl
      | some u => exact touchMoves_append pre rest u

theorem onTouchMove_first_vertical (e0 m1 : TouchEvent) (s : Siema)
    (hdrag : s.dragDefined = true) (hm1 : isPinch m1 = false)
    (hv : |m1.pageX - e0.pageX| < |m1.pageY - e0.pageY|) :
    onTouchMove m1
        { s with pointerDown := true, firstMove := true,
                 dragStart := some e0.pageX, dragStartY := some e0.pageY } =
      some { s with pointerDown := true, firstMove := false, verticalScrolling := true,
                    dragStart := some e0.pageX, dragStartY := some e0.pageY } := by
  simp [onTouchMove, hm1, hdrag, verticalDominates, toNumber, hv]

theorem onTouchMove_record (e : TouchEvent) (s : Siema) (hpinch : isPinch e = false)
    (hf : s.firstMove = false) (hv : s.verticalScrolling = false)
    (hp : s.pointerDown = true) (hd : s.dragDefined = true) :
    onTouchMove e s =
      some { s with dragEnd := some e.pageX,
                    translateX := (slideDistance s + (toNumber s.dragStart - e.pageX)) * -1 } := by
  simp [onTouchMove, hpinch, hf, hv, hp, hd]

theorem onTouchMove_horizontal (e : TouchEvent) (s : Siema) (hf : s.firstMove = false)
    (hv : s.verticalScrolling = false) (hp : s.pointerDown = true)
    (hd : s.dragDefined = true) :
    ∃ t, onTouchMove e s = some t ∧ t.firstMove = false ∧ t.verticalScrolling = false ∧
      t.pointerDown = true ∧ t.dragDefined = true ∧
      (isPinch e = false → t.dragEnd = some e.pageX) := by
  by_cases hpinch : isPinch e = true
  · exact ⟨s, onTouchMove_pinch e s hpinch, hf, hv, hp, hd, fun h => by simp [h] at hpinch⟩
  · exact ⟨_, onTouchMove_record e s (by simpa using hpinch) hf hv hp hd, hf, hv, hp, hd,
      fun _ => rfl⟩

theorem touchMoves_horizontal :
    ∀ (moves : List TouchEvent) (s : Siema), s.firstMove = false →
      s.verticalScrolling = false → s.pointerDown = true → s.dragDefined = true →
      ∃ t, touchMoves moves s = some t ∧ t.firstMove = false ∧
        t.verticalScrolling = false ∧ t.pointerDown = true ∧ t.dragDefined = true
  | [], s, hf, hv, hp, hd => ⟨s, rfl, hf, hv, hp, hd⟩
  | e :: rest, s, hf, hv, hp, hd => by
      obtain ⟨u, hu, h1, h2, h3, h4, -⟩ := onTouchMove_horizontal e s hf hv hp hd
      obtain ⟨t, ht, g⟩ := touchMoves_horizontal rest u h1 h2 h3 h4
      exact ⟨t, by rw [touchMoves, hu]; exact ht, g⟩

theorem onTouchMove_first_horizontal (e0 m1 : TouchEvent) (s : Siema)
    (hdrag : s.dragDefined = true) (hm1 : isPinch m1 = false)
    (hv : ¬ |m1.pageX - e0.pageX| < |m1.pageY - e0.pageY|) :
    onTouchMove m1
        { s with pointerDown := true, firstMove := true,
                 dragStart := some e0.pageX, dragStartY := some e0.pageY } =
      some { s with pointerDown := true, firstMove := false, verticalScrolling := false,
                    dragStart := some e0.pageX, dragStartY := some e0.pageY,
                    dragEnd := some m1.pageX,
                    translateX := (slideDistance s + (e0.pageX - m1.pageX)) * -1 } := by
  simp [onTouchMove, hm1, hdrag, verticalDominates, toNumber, hv, slideDistance]

theorem touchSession_eq (e0 : TouchEvent) (moves : List TouchEvent) (s : Siema)
    (hdrag : s.dragDefined = true) :
    touchSession e0 moves s =
      touchMoves moves
        { s with pointerDown := true, firstMove := true,
                 dragStart := some e0.pageX, dragStartY := some e0.pageY } := by
  simp [touchSession, onTouchStart, hdrag]

/-- C14: a touch session starts on an instance that has its `drag` object, with
a falsy `drag.end`; moves with several touches or a pinch scale may come first.
If the first single-touch move has `|dx| < |dy|` relative to the start point,
then whatever moves follow, no handler throws, `drag.end` and the offset are what
they were before the session, and `onTouchEnd` returns without calling
`updateAfterDrag` (it returns for every fuel, also 0), leaving `currentSlide` and
the callback count unchanged. If instead `|dx| ≥ |dy|`, that move records its
`pageX` in `drag.end`, and so does every later single-touch move. -/
theorem touch_session_direction (s : Siema) (e0 m1 : TouchEvent)
    (pre : List TouchEvent) (hdrag : s.dragDefined = true)
    (hend : truthy s.dragEnd = false)
    (hpre : ∀ e ∈ pre, isPinch e = true) (hm1 : isPinch m1 = false) :
    (|m1.pageX - e0.pageX| < |m1.pageY - e0.pageY| →
        ∀ (later : List TouchEvent) (fuel : Nat),
          touchSession e0 (pre ++ m1 :: later) s =
              some { s with pointerDown := true, firstMove := false,
                            verticalScrolling := true, dragStart := some e0.pageX,
                            dragStartY := some e0.pageY } ∧
            (touchSession e0 (pre ++ m1 :: later) s).map Siema.dragEnd = some s.dragEnd ∧
            (touchSession e0 (pre ++ m1 :: later) s).map Siema.translateX =
              some s.translateX ∧
            (touchSession e0 (pre ++ m1 :: later) s).bind (onTouchEnd fuel) =
              some (clearDrag { s with pointerDown := false, firstMove := true,
                                       verticalScrolling := true, dragStart := some e0.pageX,
                                       dragStartY := some e0.pageY }) ∧
            ((touchSession e0 (pre ++ m1 :: later) s).bind (onTouchEnd fuel)).map
              Siema.currentSlide = some s.currentSlide ∧
            ((touchSession e0 (pre ++ m1 :: later) s).bind (onTouchEnd fuel)).map
              Siema.fired = some s.fired) ∧
      (¬ |m1.pageX - e0.pageX| < |m1.pageY - e0.pageY| →
        (touchSession e0 (pre ++ [m1]) s).map Siema.dragEnd = some (some m1.pageX) ∧
          ∀ (later : List TouchEvent) (e : TouchEvent), isPinch e = false →
            (touchSession e0 (pre ++ m1 :: (later ++ [e])) s).map Siema.dragEnd =
              some (some e.pageX)) := by
  constructor
  · intro hv later fuel
    have hs : touchSession e0 (pre ++ m1 :: later) s =
        some { s with pointerDown := true, firstMove := false,
                      verticalScrolling := true, dragStart := some e0.pageX,
                      dragStartY := some e0.pageY } := by
      rw [touchSession_eq e0 _ s hdrag, touchMoves_append, touchMoves_pinch _ pre hpre,
        Option.some_bind, touchMoves, onTouchMove_first_vertical e0 m1 s hdrag hm1 hv,
        Option.some_bind]
      exact touchMoves_vertical later _ rfl rfl
    have hte : (touchSession e0 (pre ++ m1 :: later) s).bind (onTouchEnd fuel) =
        some (clearDrag { s with pointerDown := false, firstMove := true,
                                 verticalScrolling := true, dragStart := some e0.pageX,
                                 dragStartY := some e0.pageY }) := by
      rw [hs, Option.some_bind]
      simp [onTouchEnd, hend, hdrag]
    refine ⟨hs, by rw [hs]; rfl, by rw [hs]; rfl, hte, ?_, ?_⟩ <;> rw [hte] <;> rfl
  · intro hv
    have h1 := onTouchMove_first_horizontal e0 m1 s hdrag hm1 hv
    constructor
    · rw [touchSession_eq e0 _ s hdrag, touchMoves_append, touchMoves_pinch _ pre hpre,
        Option.some_bind, touchMoves, h1, Option.some_bind]
      rfl
    · intro later e he
      rw [touchSession_eq e0 _ s hdrag, touchMoves_append, touchMoves_pinch _ pre hpre,
        Option.some_bind, touchMoves, h1, Option.some_bind, touchMoves_append]
      obtain ⟨u, hu, g1, g2, g3, g4⟩ := touchMoves_horizontal later
        { s with pointerDown := true, firstMove := false, verticalScrolling := false,
                 dragStart := some e0.pageX, dragStartY := some e0.pageY,
                 dragEnd := some m1.pageX,
                 translateX := (slideDistance s + (e0.pageX - m1.pageX)) * -1 }
        rfl rfl rfl hdrag
      rw [hu, Option.some_bind, touchMoves, onTouchMove_record e u he g1 g2 g3 g4]
      rfl

/-- Witness for `touch_session_direction`: five panels mounted at index 0, touch
start at (100, 100), a two-finger move first. A first single-touch move to
(110, 150) makes the session vertical: after a further move to (300, 160) the
touch end leaves the index at 0. A first single-touch move to (50, 120) makes it
horizontal: a further move to (30, 160) records 30 in `drag.end`. -/
theorem touch_session_direction_witness :
    ((touchSession (touchAt 100 100)
          ([twoFingersAt 90 90] ++ touchAt 110 150 :: [touchAt 300 160])
          (mounted 1 false 5 0)).bind (onTouchEnd 0)).map Siema.currentSlide =
        some (mounted 1 false 5 0).currentSlide ∧
      (touchSession (touchAt 100 100)
          ([twoFingersAt 90 90] ++ touchAt 50 120 :: ([] ++ [touchAt 30 160]))
          (mounted 1 false 5 0)).map Siema.dragEnd =
        some (some (touchAt 30 160).pageX) :=
  ⟨((touch_session_direction (mounted 1 false 5 0) (touchAt 100 100) (touchAt 110 150)
        [twoFingersAt 90 90] (by simp [mounted, componentDidMount])
        (by simp [truthy, mounted, componentDidMount])
        (by simp [isPinch, twoFingersAt]) (by simp [isPinch, touchAt])).1
      (by norm_num [touchAt]) [touchAt 300 160] 0).2.2.2.2.1,
    ((touch_session_direction (mounted 1 false 5 0) (touchAt 100 100) (touchAt 50 120)
        [twoFingersAt 90 90] (by simp [mounted, componentDidMount])
        (by simp [truthy, mounted, componentDidMount])
        (by simp [isPinch, twoFingersAt]) (by simp [isPinch, touchAt])).2
      (by norm_num [touchAt, abs_of_neg])).2 [] (touchAt 30 160) (by simp [isPinch, touchAt])⟩

/-! ## Binary64 rounding -/

theorem roundHalfEven_intCast (k : Int) : roundHalfEven (k : ℚ) = k := by
  simp [roundHalfEven]

theorem roundHalfEven_of_floor (q : ℚ) (f : Int) (h1 : (f : ℚ) ≤ q) (h2 : q < f + 1) :
    roundHalfEven q =
      if q - f < 1 / 2 then f
      else if 1 / 2 < q - f then f + 1
      else if f % 2 = 0 then f else f + 1 := by
  have hf : ⌊q⌋ = f := Int.floor_eq_iff.mpr ⟨h1, h2⟩
  simp only [roundHalfEven, hf]

theorem exponent64_eq (x : ℚ) (e : Int) (hx : 0 < x) (he : -1022 ≤ e)
    (hlo : (2 : ℚ) ^ e ≤ x) (hhi : x < (2 : ℚ) ^ (e + 1)) : exponent64 x = e := by
  have hlog : Int.log 2 |x| = e := by
    rw [abs_of_pos hx]
    apply le_antisymm
    · have h := (Int.lt_zpow_iff_log_lt (R := ℚ) (b := 2) (by norm_num) hx).mp
        (by exact_mod_cast hhi)
      omega
    · exact (Int.zpow_le_iff_le_log (R := ℚ) (b := 2) (by norm_num) hx).mp
        (by exact_mod_cast hlo)
  rw [exponent64, hlog]
  exact max_eq_left he

theorem round64_eq (x : ℚ) (e f : Int) (hx : 0 < x) (he : -1022 ≤ e)
    (hlo : (2 : ℚ) ^ e ≤ x) (hhi : x < (2 : ℚ) ^ (e + 1))
    (h1 : (f : ℚ) ≤ x / 2 ^ (e - 52)) (h2 : x / 2 ^ (e - 52) < f + 1) :
    round64 x =
      ((if x / 2 ^ (e - 52) - f < 1 / 2 then f
        else if 1 / 2 < x / 2 ^ (e - 52) - f then f + 1
        else if f % 2 = 0 then f else f + 1 : Int) : ℚ) * 2 ^ (e - 52) := by
  rw [round64, exponent64_eq x e hx he hlo hhi, roundHalfEven_of_floor _ f h1 h2]

theorem exponent64_intCast (n : Int) (h : |n| < 2 ^ 53) :
    0 ≤ exponent64 (n : ℚ) ∧ exponent64 (n : ℚ) ≤ 52 := by
  by_cases h0 : n = 0
  · subst h0
    simp [exponent64, Int.log_zero_right]
  · have hpos : (0 : ℚ) < |(n : ℚ)| := abs_pos.mpr (by exact_mod_cast h0)
    have h1 : (1 : ℚ) ≤ |(n : ℚ)| := by
      have h1' : (1 : Int) ≤ |n| := Int.one_le_abs h0
      exact_mod_cast h1'
    have hlo : 0 ≤ Int.log 2 |(n : ℚ)| :=
      (Int.zpow_le_iff_le_log (R := ℚ) (b := 2) (by norm_num) hpos).mp (by simpa using h1)
    have hhi : Int.log 2 |(n : ℚ)| < 53 :=
      (Int.lt_zpow_iff_log_lt (R := ℚ) (b := 2) (by norm_num) hpos).mp (by
        have hq : ((|n| : Int) : ℚ) < 2 ^ (53 : ℕ) := by exact_mod_cast h
        rw [Int.cast_abs] at hq
        rw [zpow_ofNat]
        exact_mod_cast hq)
    rw [exponent64]
    constructor
    · exact le_max_of_le_left hlo
    · exact max_le (by omega) (by norm_num)

theorem round64_intCast (n : Int) (h : |n| < 2 ^ 53) : round64 (n : ℚ) = n := by
  obtain ⟨h0, h52⟩ := exponent64_intCast n h
  obtain ⟨j, hj⟩ : ∃ j : ℕ, exponent64 (n : ℚ) - 52 = -(j : Int) :=
    ⟨(52 - exponent64 (n : ℚ)).toNat, by omega⟩
  have hdiv : (n : ℚ) / 2 ^ (exponent64 (n : ℚ) - 52) = ((n * 2 ^ j : Int) : ℚ) := by
    rw [hj, zpow_neg, zpow_natCast]
    push_cast
    field_simp
  rw [round64, hdiv, roundHalfEven_intCast, hj, zpow_neg, zpow_natCast]
  push_cast
  field_simp

theorem sub64_intCast (a b : Int) (h : |a - b| < 2 ^ 53) :
    sub64 (a : ℚ) (b : ℚ) = ((a - b : Int) : ℚ) := by
  rw [sub64, ← Int.cast_sub, round64_intCast _ h]

/-! ## `processMovement` in binary64 -/

theorem processMovement64_eq_count :
    ∀ (fuel : Nat) (movement : ℚ) (d : Bool) (s : Siema),
      processMovement64 fuel movement d s =
        (processMovementCount64 fuel movement d s).map Prod.fst
  | 0, _, _, _ => rfl
  | fuel + 1, movement, d, s => by
      rw [processMovement64, processMovementCount64]
      split
      · rfl
      · rw [processMovement64_eq_count fuel, Option.map_map]
        rfl

theorem processMovementCount64_stop (fuel : Nat) (m : ℚ) (d : Bool) (s : Siema)
    (h : m < s.config.threshold) :
    processMovementCount64 (fuel + 1) m d s = some (s, 0) := by
  rw [processMovementCount64, if_pos h]

theorem processMovementCount64_succ (fuel k : Nat) (m m' : ℚ) (d : Bool) (s t : Siema)
    (h : s.config.threshold ≤ m) (hsub : sub64 m s.selectorWidth = m')
    (hrec : processMovementCount64 fuel m' d (navigate d s) = some (t, k)) :
    processMovementCount64 (fuel + 1) m d s = some (t, k + 1) := by
  rw [processMovementCount64, if_neg (not_lt.mpr h), hsub]
  change Option.map _ (processMovementCount64 fuel m' d (navigate d s)) = _
  rw [hrec]
  rfl

theorem processMovementCount64_whole (d : Bool) (wi : Int) (hpos : 0 < wi) :
    ∀ (fuel : Nat) (mi : Int) (s : Siema), s.selectorWidth = (wi : ℚ) → mi < 2 ^ 53 →
      -(2 : ℚ) ^ 53 < s.config.threshold - (wi : ℚ) →
      processMovementCount64 fuel (mi : ℚ) d s = processMovementCount fuel (mi : ℚ) d s
  | 0, _, _, _, _, _ => rfl
  | fuel + 1, mi, s, hw, hm, hlow => by
      rw [processMovementCount64, processMovementCount]
      by_cases h : (mi : ℚ) < s.config.threshold
      · rw [if_pos h, if_pos h]
      · rw [if_neg h, if_neg h]
        have hge : s.config.threshold ≤ (mi : ℚ) := not_lt.mp h
        have hlowq : -(2 : ℚ) ^ 53 < ((mi - wi : Int) : ℚ) := by
          push_cast
          linarith
        have hlowi : -(2 : Int) ^ 53 < mi - wi := by exact_mod_cast hlowq
        have habs : |mi - wi| < 2 ^ 53 := abs_lt.mpr ⟨hlowi, by omega⟩
        have hsub : sub64 (mi : ℚ) s.selectorWidth = ((mi - wi : Int) : ℚ) := by
          rw [hw]
          exact sub64_intCast mi wi habs
        have hex : (mi : ℚ) - s.selectorWidth = ((mi - wi : Int) : ℚ) := by
          rw [hw]
          push_cast
          rfl
        rw [hsub, hex]
        change Option.map _ (processMovementCount64 fuel _ d (navigate d s)) =
          Option.map _ (processMovementCount fuel _ d (navigate d s))
        rw [processMovementCount64_whole d wi hpos fuel (mi - wi) (navigate d s)
          (by simpa using hw) (by omega) (by simpa using hlow)]

theorem iterate_navigate_frame (d : Bool) (s : Siema) (k : Nat) :
    ((navigate d)^[k] s).config = s.config ∧
      ((navigate d)^[k] s).selectorWidth = s.selectorWidth := by
  induction k with
  | zero => exact ⟨rfl, rfl⟩
  | succ k ih => simp [Function.iterate_succ_apply', ih]

theorem iterate_navigate_false_two (s : Siema) :
    (navigate false)^[2] s = prev (prev s) := rfl

theorem processMovementCount64_iterate_succ (fuel k j : Nat) (m m' : ℚ) (d : Bool)
    (s t : Siema) (h : s.config.threshold ≤ m) (hsub : sub64 m s.selectorWidth = m')
    (hrec : processMovementCount64 fuel m' d ((navigate d)^[j + 1] s) = some (t, k)) :
    processMovementCount64 (fuel + 1) m d ((navigate d)^[j] s) = some (t, k + 1) := by
  obtain ⟨hc, hwd⟩ := iterate_navigate_frame d s j
  refine processMovementCount64_succ fuel k m m' d _ t (by rw [hc]; exact h)
    (by rw [hwd]; exact hsub) ?_
  rw [← Function.iterate_succ_apply' (navigate d) j s]
  exact hrec

/-- C13, counterexample: container `123.33333333333333` px wide, threshold 20,
movement 760. The remaining amount after six binary64 subtractions is
`19.999999999999986`, so `processMovement` makes 6 calls of `next()`; the formula
`floor((movement - threshold) / containerWidth) + 1` gives 7. -/
theorem fractional_width_six_steps :
    0 < narrow.selectorWidth ∧ narrow.config.threshold = 20 ∧
      processMovementCount64 7 760 true narrow = some ((navigate true)^[6] narrow, 6) ∧
      (if (760 : ℚ) < narrow.config.threshold then (0 : Int)
        else ⌊((760 : ℚ) - narrow.config.threshold) / narrow.selectorWidth⌋ + 1) = 7 := by
  have hw : narrow.selectorWidth = width123 := by simp [narrow]
  have ht : narrow.config.threshold = 20 := by simp [narrow]
  have r1 : sub64 (760) narrow.selectorWidth = 5600179224139093 / 8796093022208 := by
    have hd : (760 : ℚ) - width123 = 44801433793112747 / 70368744177664 := by norm_num [width123]
    rw [hw, sub64, hd, round64_eq _ 9 5600179224139093 (by norm_num) (by norm_num) (by norm_num) (by norm_num)
      (by norm_num) (by norm_num)]
    norm_num
  have r2 : sub64 (5600179224139093 / 8796093022208) narrow.selectorWidth = 2257663875700053 / 4398046511104 := by
    have hd : (5600179224139093 / 8796093022208 : ℚ) - width123 = 36122622011200851 / 70368744177664 := by norm_num [width123]
    rw [hw, sub64, hd, round64_eq _ 9 4515327751400106 (by norm_num) (by norm_num) (by norm_num) (by norm_num)
      (by norm_num) (by norm_num)]
    norm_num
  have r3 : sub64 (2257663875700053 / 4398046511104) narrow.selectorWidth = 6860952557322239 / 17592186044416 := by
    have hd : (2257663875700053 / 4398046511104 : ℚ) - width123 = 27443810229288955 / 70368744177664 := by norm_num [width123]
    rw [hw, sub64, hd, round64_eq _ 8 6860952557322238 (by norm_num) (by norm_num) (by norm_num) (by norm_num)
      (by norm_num) (by norm_num)]
    norm_num
  have r4 : sub64 (6860952557322239 / 17592186044416) narrow.selectorWidth = 2345624805922133 / 8796093022208 := by
    have hd : (6860952557322239 / 17592186044416 : ℚ) - width123 = 18764998447377063 / 70368744177664 := by norm_num [width123]
    rw [hw, sub64, hd, round64_eq _ 8 4691249611844265 (by norm_num) (by norm_num) (by norm_num) (by norm_num)
      (by norm_num) (by norm_num)]
    norm_num
  have r5 : sub64 (2345624805922133 / 8796093022208) narrow.selectorWidth = 2521546666366293 / 17592186044416 := by
    have hd : (2345624805922133 / 8796093022208 : ℚ) - width123 = 10086186665465171 / 70368744177664 := by norm_num [width123]
    rw [hw, sub64, hd, round64_eq _ 7 5043093332732585 (by norm_num) (by norm_num) (by norm_num) (by norm_num)
      (by norm_num) (by norm_num)]
    norm_num
  have r6 : sub64 (2521546666366293 / 17592186044416) narrow.selectorWidth = 1407374883553279 / 70368744177664 := by
    have hd : (2521546666366293 / 17592186044416 : ℚ) - width123 = 1407374883553279 / 70368744177664 := by norm_num [width123]
    rw [hw, sub64, hd, round64_eq _ 4 5629499534213116 (by norm_num) (by norm_num) (by norm_num) (by norm_num)
      (by norm_num) (by norm_num)]
    norm_num
  have h6 := processMovementCount64_stop 0 (1407374883553279 / 70368744177664) true
    ((navigate true)^[6] narrow) (by rw [(iterate_navigate_frame true narrow 6).1, ht]; norm_num)
  have h5 := processMovementCount64_iterate_succ 1 0 5 (2521546666366293 / 17592186044416) (1407374883553279 / 70368744177664) true narrow _
    (by rw [ht]; norm_num) r6 h6
  have h4 := processMovementCount64_iterate_succ 2 1 4 (2345624805922133 / 8796093022208) (2521546666366293 / 17592186044416) true narrow _
    (by rw [ht]; norm_num) r5 h5
  have h3 := processMovementCount64_iterate_succ 3 2 3 (6860952557322239 / 17592186044416) (2345624805922133 / 8796093022208) true narrow _
    (by rw [ht]; norm_num) r4 h4
  have h2 := processMovementCount64_iterate_succ 4 3 2 (2257663875700053 / 4398046511104) (6860952557322239 / 17592186044416) true narrow _
    (by rw [ht]; norm_num) r3 h3
  have h1 := processMovementCount64_iterate_succ 5 4 1 (5600179224139093 / 8796093022208) (2257663875700053 / 4398046511104) true narrow _
    (by rw [ht]; norm_num) r2 h2
  have h0 := processMovementCount64_iterate_succ 6 5 0 (760) (5600179224139093 / 8796093022208) true narrow _
    (by rw [ht]; norm_num) r1 h1
  refine ⟨by rw [hw]; norm_num [width123], ht, h0, ?_⟩
  have hf : ⌊((760 : ℚ) - 20) / width123⌋ = 6 := by
    rw [Int.floor_eq_iff]
    norm_num [width123]
  rw [ht, hw, if_neg (by norm_num), hf]
  rfl

/-- C13, amended: with a whole-number `selectorWidth > 0`, a whole-number
movement below `2 ^ 53` and `threshold - selectorWidth > -2 ^ 53`, every
subtraction of `processMovement` is exact in binary64, and `processMovement`
returns as soon as the fuel exceeds the number of steps. The number of navigation
calls is 0 when `movement < threshold` and otherwise
`floor((movement - threshold) / selectorWidth) + 1`, and the result is that many
applications of the same call (`next()` if `toTheRight`, else `prev()`). -/
theorem processMovement64_whole_pixels (s : Siema) (mi wi : Int) (toTheRight : Bool)
    (fuel : Nat) (hw : s.selectorWidth = (wi : ℚ)) (hpos : 0 < wi) (hm : mi < 2 ^ 53)
    (hlow : -(2 : ℚ) ^ 53 < s.config.threshold - (wi : ℚ))
    (hfuel : expectedSteps (mi : ℚ) s.config.threshold (wi : ℚ) < fuel) :
    processMovementCount64 fuel (mi : ℚ) toTheRight s =
        some ((navigate toTheRight)^[expectedSteps (mi : ℚ) s.config.threshold (wi : ℚ)] s,
          expectedSteps (mi : ℚ) s.config.threshold (wi : ℚ)) ∧
      processMovement64 fuel (mi : ℚ) toTheRight s =
        some ((navigate toTheRight)^[expectedSteps (mi : ℚ) s.config.threshold (wi : ℚ)] s) ∧
      ((expectedSteps (mi : ℚ) s.config.threshold (wi : ℚ) : Nat) : Int) =
        (if (mi : ℚ) < s.config.threshold then 0
         else ⌊((mi : ℚ) - s.config.threshold) / (wi : ℚ)⌋ + 1) := by
  have hwq : (0 : ℚ) < (wi : ℚ) := by exact_mod_cast hpos
  have hc : processMovementCount64 fuel (mi : ℚ) toTheRight s =
      some ((navigate toTheRight)^[expectedSteps (mi : ℚ) s.config.threshold (wi : ℚ)] s,
        expectedSteps (mi : ℚ) s.config.threshold (wi : ℚ)) := by
    rw [processMovementCount64_whole toTheRight wi hpos fuel mi s hw hm hlow]
    have h := processMovementCount_eq toTheRight fuel (mi : ℚ) s (by rw [hw]; exact hwq)
      (by rw [hw]; exact hfuel)
    rw [hw] at h
    exact h
  refine ⟨hc, ?_, expectedSteps_cast _ _ _ hwq⟩
  rw [processMovement64_eq_count, hc]
  rfl

/-- Witness for `processMovement64_whole_pixels`: container 1000 px, threshold
20, five panels, movement 2500 to the right: three `next()` calls. -/
theorem processMovement64_whole_pixels_witness :
    (mounted 1 false 5 0).selectorWidth = ((1000 : Int) : ℚ) ∧
      processMovementCount64 4 ((2500 : Int) : ℚ) true (mounted 1 false 5 0) =
        some (next (next (next (mounted 1 false 5 0))), 3) ∧
      processMovement64 4 ((2500 : Int) : ℚ) true (mounted 1 false 5 0) =
        some (next (next (next (mounted 1 false 5 0)))) := by
  have hw : (mounted 1 false 5 0).selectorWidth = ((1000 : Int) : ℚ) := by simp [mounted]
  have ht : (mounted 1 false 5 0).config.threshold = 20 := by simp [mounted]
  have h3 : expectedSteps ((2500 : Int) : ℚ) (mounted 1 false 5 0).config.threshold
      ((1000 : Int) : ℚ) = 3 := by
    have hf : ⌊((2500 : ℚ) - 20) / 1000⌋ = 2 := by
      rw [Int.floor_eq_iff]
      norm_num
    rw [ht]
    simp only [expectedSteps, Int.cast_ofNat]
    rw [if_neg (by norm_num), hf]
    rfl
  have h := processMovement64_whole_pixels (mounted 1 false 5 0) 2500 1000 true 4 hw
    (by decide) (by norm_num) (by rw [ht]; norm_num) (by rw [h3]; decide)
  rw [h3] at h
  exact ⟨hw, h.1, h.2.1⟩

/-! ## The two versions of `updateAfterDrag` in binary64 -/

theorem updateAfterDrag64_eq_count (fuel : Nat) (s : Siema) (hdrag : s.dragDefined = true) :
    updateAfterDrag64 fuel s =
      (processMovementCount64 fuel |sub64 (toNumber s.dragEnd) (toNumber s.dragStart)|
        (decide (sub64 (toNumber s.dragEnd) (toNumber s.dragStart) < 0)) s).map
        (fun r => slideToCurrent r.1) := by
  simp only [updateAfterDrag64, hdrag, processMovement64_eq_count, Option.map_map]
  rfl

theorem updateAfterDragSrc64_whole (s : Siema)
    (hdrag : s.dragDefined = true)
    (hsub : sub64 (toNumber s.dragEnd) (toNumber s.dragStart) =
      toNumber s.dragEnd - toNumber s.dragStart) :
    updateAfterDragSrc64 s = some (updateAfterDragSrc s) := by
  simp only [updateAfterDragSrc64, updateAfterDragSrc, hdrag, hsub, Bool.not_true,
    Bool.false_eq_true, if_false]
  split_ifs <;> rfl

theorem updateAfterDrag64_whole (s : Siema) (a b wi : Int) (fuel : Nat)
    (hdrag : s.dragDefined = true) (ha : toNumber s.dragStart = (a : ℚ))
    (hb : toNumber s.dragEnd = (b : ℚ)) (hab : |b - a| < 2 ^ 53)
    (hw : s.selectorWidth = (wi : ℚ)) (hpos : 0 < wi)
    (hlow : -(2 : ℚ) ^ 53 < s.config.threshold - (wi : ℚ)) :
    sub64 (toNumber s.dragEnd) (toNumber s.dragStart) =
        toNumber s.dragEnd - toNumber s.dragStart ∧
      updateAfterDrag64 fuel s = updateAfterDrag fuel s := by
  have hsub : sub64 (toNumber s.dragEnd) (toNumber s.dragStart) =
      toNumber s.dragEnd - toNumber s.dragStart := by
    rw [ha, hb, sub64_intCast b a hab]
    push_cast
    rfl
  refine ⟨hsub, ?_⟩
  rw [updateAfterDrag64_eq_count fuel s hdrag, updateAfterDrag_eq_count, hsub]
  have habs : |toNumber s.dragEnd - toNumber s.dragStart| = ((|b - a| : Int) : ℚ) := by
    rw [ha, hb]
    push_cast
    rfl
  rw [habs, processMovementCount64_whole _ wi hpos fuel |b - a| s hw hab hlow]

/-- C15, counterexample: container `128.33333333333334` px wide, threshold 300,
drag from x = 0 to x = `428.3333333333333`, index 2. The claim's conditions hold,
but in binary64 `428.3333333333333 - 128.33333333333334` is exactly 300, so the
build version calls `prev()` twice (index 0, two callback calls) where the `src/`
version calls it once (index 1, one callback call). -/
theorem fractional_drag_versions_differ :
    (0 < fractionalDrag.config.threshold ∧ 0 < fractionalDrag.selectorWidth ∧
      |toNumber fractionalDrag.dragEnd - toNumber fractionalDrag.dragStart| ≠
        fractionalDrag.config.threshold ∧
      |toNumber fractionalDrag.dragEnd - toNumber fractionalDrag.dragStart| <
        fractionalDrag.config.threshold + fractionalDrag.selectorWidth) ∧
    (updateAfterDrag64 3 fractionalDrag).map Siema.currentSlide = some 0 ∧
    (updateAfterDrag64 3 fractionalDrag).map Siema.fired = some 2 ∧
    (updateAfterDragSrc64 fractionalDrag).map Siema.currentSlide = some 1 ∧
    (updateAfterDragSrc64 fractionalDrag).map Siema.fired = some 1 := by
  have hw : fractionalDrag.selectorWidth = width128 := by simp [fractionalDrag]
  have ht : fractionalDrag.config.threshold = 300 := by simp [fractionalDrag]
  have hdrag : fractionalDrag.dragDefined = true := by
    simp [fractionalDrag, componentDidMount]
  have hexact : toNumber fractionalDrag.dragEnd - toNumber fractionalDrag.dragStart =
      reach428 := by
    simp [fractionalDrag, toNumber]
  have hmov : sub64 (toNumber fractionalDrag.dragEnd) (toNumber fractionalDrag.dragStart) =
      reach428 := by
    rw [sub64, hexact, reach428, round64_eq _ 8 7535319689024853 (by norm_num) (by norm_num) (by norm_num) (by norm_num)
      (by norm_num) (by norm_num)]
    norm_num
  have r1 : sub64 reach428 fractionalDrag.selectorWidth = 300 := by
    have hd : reach428 - width128 = 10555311626649599 / 35184372088832 := by
      norm_num [reach428, width128]
    rw [hw, sub64, hd, round64_eq _ 8 5277655813324799 (by norm_num) (by norm_num) (by norm_num) (by norm_num)
      (by norm_num) (by norm_num)]
    norm_num
  have r2 : sub64 300 fractionalDrag.selectorWidth = 6039983875249493 / 35184372088832 := by
    have hd : (300 : ℚ) - width128 = 6039983875249493 / 35184372088832 := by
      norm_num [width128]
    rw [hw, sub64, hd, round64_eq _ 7 6039983875249493 (by norm_num) (by norm_num) (by norm_num) (by norm_num)
      (by norm_num) (by norm_num)]
    norm_num
  have hpos : (0 : ℚ) < reach428 := by norm_num [reach428]
  have h2 := processMovementCount64_stop 0 (6039983875249493 / 35184372088832) false
    ((navigate false)^[2] fractionalDrag)
    (by rw [(iterate_navigate_frame false fractionalDrag 2).1, ht]; norm_num)
  have h1 := processMovementCount64_iterate_succ 1 0 1 300
    (6039983875249493 / 35184372088832) false fractionalDrag _ (by rw [ht]) r2 h2
  have h0 := processMovementCount64_iterate_succ 2 1 0 reach428 300 false fractionalDrag _
    (by rw [ht]; norm_num [reach428]) r1 h1
  have hbuild : updateAfterDrag64 3 fractionalDrag =
      some (slideToCurrent (prev (prev fractionalDrag))) := by
    rw [Function.iterate_zero_apply, iterate_navigate_false_two] at h0
    rw [updateAfterDrag64_eq_count 3 _ hdrag, hmov, abs_of_pos hpos,
      decide_eq_false (not_lt.mpr (le_of_lt hpos)), h0]
    rfl
  have hsrc : updateAfterDragSrc64 fractionalDrag =
      some (slideToCurrent (prev fractionalDrag)) := by
    have hgt : |reach428| > (300 : ℚ) := by
      rw [abs_of_pos hpos]
      norm_num [reach428]
    simp only [updateAfterDragSrc64, hdrag, hmov, ht]
    simp [hpos, hgt]
  have hcur : fractionalDrag.currentSlide = 2 := by simp [fractionalDrag]
  have hloop : fractionalDrag.config.loop = false := by simp [fractionalDrag]
  have hcb : fractionalDrag.onAfterChange = true := by simp [fractionalDrag]
  have hfired : fractionalDrag.fired = 0 := by simp [fractionalDrag]
  have hp1 : (prev fractionalDrag).currentSlide = 1 := by
    rw [prev_index, hcur, hloop]
    decide
  have hp2 : (prev (prev fractionalDrag)).currentSlide = 0 := by
    rw [prev_index, hp1, prev_config, hloop]
    decide
  have hf1 : (prev fractionalDrag).fired = 1 := by
    rw [prev_fired, hp1, hcur, hcb, hfired, hloop]
    decide
  have hf2 : (prev (prev fractionalDrag)).fired = 2 := by
    rw [prev_fired, hp2, hp1, prev_onAfterChange, hcb, hf1, prev_config, hloop]
    decide
  refine ⟨⟨by rw [ht]; norm_num, by rw [hw]; norm_num [width128], ?_, ?_⟩, ?_, ?_, ?_, ?_⟩
  · rw [hexact, ht, abs_of_pos hpos]
    norm_num [reach428]
  · rw [hexact, ht, hw, abs_of_pos hpos]
    norm_num [reach428, width128]
  · rw [hbuild]
    simpa using hp2
  · rw [hbuild]
    simpa using hf2
  · rw [hsrc]
    simpa using hp1
  · rw [hsrc]
    simpa using hf1

/-- C15, amended: on an instance that has its `drag` object, with whole-number
positions whose difference is below `2 ^ 53` in magnitude, a whole-number
`selectorWidth` with `0 < selectorWidth ≤ 2 ^ 53`, `threshold > 0`,
`|end - start| ≠ threshold` and `|end - start| < threshold + selectorWidth`, the
build version of `updateAfterDrag` returns, and returns the state that the `src/`
version produces; in particular `currentSlide` and the number of `onAfterChange`
calls agree. -/
theorem updateAfterDrag64_versions_agree (s : Siema) (a b wi : Int) (fuel : Nat)
    (hdrag : s.dragDefined = true) (ha : toNumber s.dragStart = (a : ℚ))
    (hb : toNumber s.dragEnd = (b : ℚ)) (hab : |b - a| < 2 ^ 53)
    (hw : s.selectorWidth = (wi : ℚ)) (hpos : 0 < wi) (hwi : wi ≤ 2 ^ 53)
    (hthr : 0 < s.config.threshold)
    (hne : |toNumber s.dragEnd - toNumber s.dragStart| ≠ s.config.threshold)
    (hlt : |toNumber s.dragEnd - toNumber s.dragStart| <
      s.config.threshold + s.selectorWidth) :
    updateAfterDrag64 (fuel + 2) s = updateAfterDragSrc64 s ∧
      (updateAfterDrag64 (fuel + 2) s).isSome = true ∧
      (updateAfterDrag64 (fuel + 2) s).map Siema.currentSlide =
        (updateAfterDragSrc64 s).map Siema.currentSlide ∧
      (updateAfterDrag64 (fuel + 2) s).map Siema.fired =
        (updateAfterDragSrc64 s).map Siema.fired := by
  have hwq : (wi : ℚ) ≤ 2 ^ 53 := by exact_mod_cast hwi
  have hlow : -(2 : ℚ) ^ 53 < s.config.threshold - (wi : ℚ) := by linarith
  obtain ⟨hsub, h64⟩ := updateAfterDrag64_whole s a b wi (fuel + 2) hdrag ha hb hab hw hpos hlow
  have hsw : 0 < s.selectorWidth := by
    rw [hw]
    exact_mod_cast hpos
  have key : updateAfterDrag64 (fuel + 2) s = updateAfterDragSrc64 s := by
    rw [h64, updateAfterDrag_exact_eq_src s fuel hthr hsw hne hlt,
      updateAfterDragSrc64_whole s hdrag hsub]
  refine ⟨key, ?_, by rw [key], by rw [key]⟩
  rw [key, updateAfterDragSrc64_whole s hdrag hsub]
  rfl

/-- Witness for `updateAfterDrag64_versions_agree`: container 1000 px, threshold
20, three panels, drag from x = 500 to x = 200: both versions make one `next()`
and store index 1. -/
theorem updateAfterDrag64_versions_agree_witness :
    updateAfterDrag64 2 (recordedDrag 3 500 200) =
        updateAfterDragSrc64 (recordedDrag 3 500 200) ∧
      (updateAfterDrag64 2 (recordedDrag 3 500 200)).isSome = true :=
  have h := updateAfterDrag64_versions_agree (recordedDrag 3 500 200) 500 200 1000 0
    (by simp [recordedDrag, mounted, componentDidMount])
    (by simp [recordedDrag, toNumber])
    (by simp [recordedDrag, toNumber])
    (by decide)
    (by simp [recordedDrag, mounted])
    (by decide) (by decide)
    (by simp [recordedDrag, mounted])
    (by simp [recordedDrag, mounted, toNumber]; norm_num [abs_of_neg])
    (by simp [recordedDrag, mounted, toNumber]; norm_num [abs_of_neg])
  ⟨h.1, h.2.1⟩

end ReactSiema
